import Mathlib

/-!
Shallow embedding of the chatflow repository's domain logic.

The repository's `chat.service.ts` contains two variants of the chat service
separated by a document break: the first (lines 1-447, here namespace `V1`)
and the second (lines 447-887, here namespace `V2`).  They share
`createPrivateChat`, `findExistingPrivateChat`, `getOrCreateDirectChat`,
`addUserToGroup` and `removeParticipant` verbatim, and differ in
`sendMessage` and `markMessagesAsRead`.  The user service (friend lifecycle
and profile upsert) is embedded from `user.service.ts`.

The external document store is modelled as an explicit in-memory state:
rooms are an association list keyed by document id, each room carrying its
`messages` subcollection; user profiles are an association list keyed by
user id.  Firestore field semantics are embedded explicitly:
`increment(1)` treats a missing field as 0, `arrayUnion` appends only
missing elements, `arrayRemove` removes all occurrences, an equality
`where` filter never matches a document whose field is missing, and a `!=`
filter also excludes documents missing the field.  JavaScript objects used
as maps (`readBy`, `unreadCount`, `activeUsers`, update payloads) are
embedded as insertion-ordered association lists where assignment
overwrites an existing key in place.
-/

set_option maxHeartbeats 1000000

namespace Chatflow

/-- Opaque user identifier issued by the identity provider. -/
abbrev UserId := String

/-- Document id of a chat room. -/
abbrev RoomId := String

/-- A JavaScript-object-style string-keyed map: an insertion-ordered
association list.  All maps built by the embedded code go through
`setEntry`, which keeps at most one entry per key, mirroring JS object
semantics. -/
abbrev JsMap (α : Type) := List (String × α)

/-- Property read `m[k]`, with `none` standing for JS `undefined` /
a missing Firestore field. -/
def getEntry {α : Type} : JsMap α → String → Option α
  | [], _ => none
  | e :: rest, k => if e.1 = k then some e.2 else getEntry rest k

/-- Property assignment `m[k] = v`: overwrite the existing entry in place,
or append a fresh key at the end. -/
def setEntry {α : Type} : JsMap α → String → α → JsMap α
  | [], k, v => [(k, v)]
  | e :: rest, k, v => if e.1 = k then (k, v) :: rest else e :: setEntry rest k v

/-- Firestore `increment(1)` applied to numeric field `k`: a missing field
is treated as 0, so it becomes 1. -/
def incEntry : JsMap Nat → String → JsMap Nat
  | [], k => [(k, 1)]
  | e :: rest, k => if e.1 = k then (k, e.2 + 1) :: rest else e :: incEntry rest k

/-- Firestore `arrayUnion(x)`: append `x` unless already present. -/
def arrayUnion (l : List String) (x : String) : List String :=
  if l.contains x then l else l ++ [x]

/-- Firestore `arrayRemove(x)`: remove every occurrence of `x`. -/
def arrayRemove (l : List String) (x : String) : List String :=
  l.filter (fun y => !(y == x))

/-- The `lastMessage` snapshot stored on a chat room document. -/
structure LastMessage where
  text : String
  timestamp : Nat
  senderId : UserId
  readBy : JsMap Bool
deriving Repr, DecidableEq

/-- A message document in a room's `messages` subcollection. -/
structure Message where
  text : String
  senderId : UserId
  timestamp : Nat
  readBy : JsMap Bool
deriving Repr, DecidableEq

/-- A chat room document.  `type` is the stored string, `"private"` or
`"group"`, exactly as in the source's `'private' | 'group'` union.  The
room's `messages` subcollection is carried inline, in insertion order. -/
structure ChatRoom where
  type : String
  name : Option String := none
  participants : List UserId
  lastMessage : Option LastMessage := none
  createdAt : Nat := 0
  groupAdmin : Option UserId := none
  unreadCount : JsMap Nat := []
  activeUsers : JsMap Bool := []
  messages : List (String × Message) := []
deriving Repr, DecidableEq

/-- The `chatRooms` collection plus the generator state for fresh document
ids and the current timestamp. -/
structure ChatStore where
  rooms : List (RoomId × ChatRoom)
  nextId : Nat := 0
  now : Nat := 0
deriving Repr, DecidableEq

/-- `getDoc` on `chatRooms/{roomId}`. -/
def getRoom (s : ChatStore) (roomId : RoomId) : Option ChatRoom :=
  (s.rooms.find? (fun e => e.1 == roomId)).map (fun e => e.2)

/-- `updateDoc`/batch update replacing the stored room document. -/
def setRoom (s : ChatStore) (roomId : RoomId) (room : ChatRoom) : ChatStore :=
  { s with rooms := s.rooms.map (fun e => if e.1 = roomId then (roomId, room) else e) }

/-- A fragment of JavaScript runtime values, enough to evaluate the
`!room.type === 'group'` guard of `removeParticipant` literally. -/
inductive JsVal
  | bool (b : Bool)
  | str (s : String)
deriving Repr, DecidableEq

/-- JavaScript logical negation `!v`; a string is falsy exactly when empty. -/
def jsNot : JsVal → Bool
  | .bool b => !b
  | .str s => s == ""

/-- JavaScript `String.prototype.trim()`: strip whitespace from both
ends, embedded structurally over the character list. -/
def jsTrim (s : String) : String :=
  String.mk (((s.data.dropWhile Char.isWhitespace).reverse.dropWhile Char.isWhitespace).reverse)

/-- JavaScript strict equality `===`: operands of different runtime types
are never equal. -/
def jsStrictEq : JsVal → JsVal → Bool
  | .bool a, .bool b => a == b
  | .str a, .str b => a == b
  | _, _ => false

/-- `findExistingPrivateChat(user1Id, user2Id)` (identical in both source
variants): query rooms with `type == 'private'` containing `user1Id`, then
take the first whose `participants` also includes `user2Id`. -/
def findExistingPrivateChat (s : ChatStore) (user1Id user2Id : UserId) :
    Option (RoomId × ChatRoom) :=
  ((s.rooms.filter (fun e => e.2.type == "private" && e.2.participants.contains user1Id)).find?
    (fun e => e.2.participants.contains user2Id))

/-- `createPrivateChat(user1Id, user2Id)` (identical in both source
variants): return the existing private chat if found, else `addDoc` a new
room seeded with the "Chat created" message snapshot. -/
def createPrivateChat (s : ChatStore) (user1Id user2Id : UserId) :
    (RoomId × ChatRoom) × ChatStore :=
  match findExistingPrivateChat s user1Id user2Id with
  | some existingChat => (existingChat, s)
  | none =>
    let timestamp := s.now
    let chatRoom : ChatRoom :=
      { type := "private"
        participants := [user1Id, user2Id]
        createdAt := timestamp
        lastMessage := some
          { text := "Chat created"
            timestamp := timestamp
            senderId := user1Id
            readBy := setEntry (setEntry [] user1Id true) user2Id false }
        unreadCount := setEntry (setEntry [] user1Id 0) user2Id 1 }
    let id := toString s.nextId
    ((id, chatRoom), { s with rooms := s.rooms ++ [(id, chatRoom)], nextId := s.nextId + 1 })

/-- `getOrCreateDirectChat(user1Id, user2Id)`: find, else create. -/
def getOrCreateDirectChat (s : ChatStore) (user1Id user2Id : UserId) :
    (RoomId × ChatRoom) × ChatStore :=
  match findExistingPrivateChat s user1Id user2Id with
  | some existingChat => (existingChat, s)
  | none => createPrivateChat s user1Id user2Id

/-- `addUserToGroup(chatId, adminId, userId)` (identical in both source
variants): not-found, admin and membership checks, then atomic
`arrayUnion` on `participants`. -/
def addUserToGroup (s : ChatStore) (chatId : RoomId) (adminId userId : UserId) :
    Except String Unit × ChatStore :=
  match getRoom s chatId with
  | none => (.error "Chat room not found", s)
  | some chatData =>
    if chatData.groupAdmin ≠ some adminId then
      (.error "Only group admin can add members", s)
    else if chatData.participants.contains userId then
      (.error "User is already in the group", s)
    else
      (.ok (), setRoom s chatId
        { chatData with participants := arrayUnion chatData.participants userId })

/-- `removeParticipant(roomId, participantId)` (identical in both source
variants).  The source guard is `if (!room.type === 'group')`: the boolean
`!room.type` is strict-compared with the string `'group'`, evaluated here
literally over `JsVal`. -/
def removeParticipant (s : ChatStore) (roomId : RoomId) (participantId : UserId) :
    Except String Unit × ChatStore :=
  match getRoom s roomId with
  | none => (.error "Chat room not found", s)
  | some room =>
    if jsStrictEq (.bool (jsNot (.str room.type))) (.str "group") then
      (.error "Cannot remove participant from non-group chat", s)
    else
      (.ok (), setRoom s roomId
        { room with participants := arrayRemove room.participants participantId })

namespace V1

/-- `sendMessage(roomId, senderId, text)`, first variant (source lines
195-249).  No validation of `text`; `readBy[p] = (p === senderId)`; the
batch sets the message, the `lastMessage` snapshot, and an `increment(1)`
update-key per non-sender participant (duplicate participants collapse to
one object key, hence one increment). -/
def sendMessage (s : ChatStore) (roomId : RoomId) (senderId : UserId) (text : String) :
    Except String String × ChatStore :=
  match getRoom s roomId with
  | none => (.error "Chat room not found", s)
  | some room =>
    let readBy : JsMap Bool :=
      room.participants.foldl (fun m participantId => setEntry m participantId (participantId == senderId)) []
    let message : Message := { text := text, senderId := senderId, timestamp := s.now, readBy := readBy }
    let updateKeys : JsMap Unit :=
      room.participants.foldl
        (fun m participantId =>
          if participantId == senderId then m else setEntry m participantId ()) []
    let room' : ChatRoom := { room with
      messages := room.messages ++ [(toString s.nextId, message)]
      lastMessage := some { text := text, timestamp := s.now, senderId := senderId, readBy := readBy }
      unreadCount := updateKeys.foldl (fun uc e => incEntry uc e.1) room.unreadCount }
    (.ok (toString s.nextId), { setRoom s roomId room' with nextId := s.nextId + 1 })

/-- `markMessagesAsRead(roomId, userId)`, first variant (source lines
284-315).  The query `where('readBy.userId', '==', false)` matches only
messages whose `readBy` field for `userId` is present and `false`; the
batch flips those and sets `unreadCount[userId] = 0` and
`lastMessage.readBy[userId] = true` on the room.  A batch update against a
missing room document is rejected by the store. -/
def markMessagesAsRead (s : ChatStore) (roomId : RoomId) (userId : UserId) :
    Except String Unit × ChatStore :=
  match getRoom s roomId with
  | none => (.error "NOT_FOUND", s)
  | some room =>
    let messages' := room.messages.map (fun e =>
      if getEntry e.2.readBy userId == some false then
        (e.1, { e.2 with readBy := setEntry e.2.readBy userId true })
      else e)
    let room' : ChatRoom := { room with
      messages := messages'
      unreadCount := setEntry room.unreadCount userId 0
      lastMessage := room.lastMessage.map
        (fun lm => { lm with readBy := setEntry lm.readBy userId true }) }
    (.ok (), setRoom s roomId room')

end V1

/-- The two kinds of per-participant counter updates assembled by the
second variant's `sendMessage`: `increment(1)` or a literal `0`. -/
inductive CounterUpd
  | incr
  | setZero
deriving Repr, DecidableEq

namespace V2

/-- `sendMessage(chatId, senderId, text)`, second variant (source lines
639-705).  Validates that `chatId`, `senderId` and the trimmed text are
truthy; `readBy[p] = (activeUsers[p] === true) || p === senderId`; the
unread-count update object maps each participant either to `increment(1)`
(when its computed `readBy` is false) or to the literal `0`. -/
def sendMessage (s : ChatStore) (chatId : RoomId) (senderId : UserId) (text : String) :
    Except String (String × Message) × ChatStore :=
  if chatId == "" || senderId == "" || jsTrim text == "" then
    (.error "Chat ID, sender ID, and message text are required", s)
  else
    match getRoom s chatId with
    | none => (.error "Chat room not found", s)
    | some chatData =>
      let activeUsers := chatData.activeUsers
      let rbuc := chatData.participants.foldl
        (fun acc participantId =>
          let v := getEntry activeUsers participantId == some true || participantId == senderId
          (setEntry acc.1 participantId v,
           if !v then setEntry acc.2 participantId CounterUpd.incr
           else setEntry acc.2 participantId CounterUpd.setZero))
        (([], []) : JsMap Bool × JsMap CounterUpd)
      let message : Message :=
        { text := jsTrim text, senderId := senderId, timestamp := s.now, readBy := rbuc.1 }
      let chatData' : ChatRoom := { chatData with
        messages := chatData.messages ++ [(toString s.nextId, message)]
        lastMessage := some { text := message.text, timestamp := message.timestamp,
                              senderId := message.senderId, readBy := message.readBy }
        unreadCount := rbuc.2.foldl (fun uc e =>
          match e.2 with
          | CounterUpd.incr => incEntry uc e.1
          | CounterUpd.setZero => setEntry uc e.1 0) chatData.unreadCount }
      (.ok (toString s.nextId, message), { setRoom s chatId chatData' with nextId := s.nextId + 1 })

/-- Firestore filter `where('readBy.userId', '!=', true)`: matches a
message iff the field is present and not `true`; documents missing the
field are excluded from `!=` queries. -/
def notTrueEntry (m : JsMap Bool) (k : String) : Bool :=
  match getEntry m k with
  | some b => !b
  | none => false

/-- `markMessagesAsRead(chatId, userId)`, second variant (source lines
740-774).  Flips the messages matched by the `!=` query and, in the same
batch, sets `unreadCount[userId] = 0`, `lastMessage.readBy[userId] = true`
and `activeUsers[userId] = true`. -/
def markMessagesAsRead (s : ChatStore) (chatId : RoomId) (userId : UserId) :
    Except String Unit × ChatStore :=
  match getRoom s chatId with
  | none => (.error "NOT_FOUND", s)
  | some room =>
    let messages' := room.messages.map (fun e =>
      if notTrueEntry e.2.readBy userId then
        (e.1, { e.2 with readBy := setEntry e.2.readBy userId true })
      else e)
    let room' : ChatRoom := { room with
      messages := messages'
      unreadCount := setEntry room.unreadCount userId 0
      lastMessage := room.lastMessage.map
        (fun lm => { lm with readBy := setEntry lm.readBy userId true })
      activeUsers := setEntry room.activeUsers userId true }
    (.ok (), setRoom s chatId room')

end V2

/-- The `friendRequests` map stored on a user document. -/
structure FriendRequests where
  sent : List UserId := []
  received : List UserId := []
deriving Repr, DecidableEq

/-- A user profile document in the `users` collection.  Every field is
optional: `none` stands for a field missing from the stored document
(merge-upserts may create profiles piecemeal). -/
structure UserProfile where
  id : Option String := none
  email : Option String := none
  username : Option String := none
  qrCode : Option String := none
  lastSeen : Option Nat := none
  displayName : Option String := none
  photoURL : Option String := none
  status : Option String := none
  friends : Option (List UserId) := none
  friendRequests : Option FriendRequests := none
deriving Repr, DecidableEq

/-- The `users` collection, keyed by document id. -/
abbrev UserStore := List (UserId × UserProfile)

/-- `getDoc` on `users/{userId}`. -/
def getUser (s : UserStore) (userId : UserId) : Option UserProfile :=
  (s.find? (fun e => e.1 == userId)).map (fun e => e.2)

/-- `updateDoc` on an existing user document: rewrite it through `f`. -/
def updateUser (s : UserStore) (userId : UserId) (f : UserProfile → UserProfile) : UserStore :=
  s.map (fun e => if e.1 = userId then (userId, f e.2) else e)

/-- `setDoc(..., { merge: true })`: merge fields into the existing document
or create it. -/
def setDocMerge (s : UserStore) (userId : UserId) (merge : UserProfile → UserProfile)
    (fresh : UserProfile) : UserStore :=
  if (s.find? (fun e => e.1 == userId)).isSome then updateUser s userId merge
  else s ++ [(userId, fresh)]

/-- The argument `data: Partial<UserProfile>` of `upsertProfile`. -/
structure ProfileData where
  email : Option String := none
  username : Option String := none
  displayName : Option String := none
  photoURL : Option String := none
  status : Option String := none
deriving Repr, DecidableEq

/-- JS truthiness of an optional string: present and non-empty. -/
def jsTruthyStr : Option String → Bool
  | none => false
  | some s => !(s == "")

/-- `QRCode.toDataURL(userId)` is an opaque external encoder whose decoded
content is exactly the user id (spec: the qr token is a direct carrier of
the identity token); it is modelled as the identity encoding. -/
def generateQRCode (userId : String) : String := userId

/-- `email.split("@")[0]`: the text before the first `@` (the whole string
when no `@` occurs). -/
def localPart (email : String) : String :=
  String.mk (email.data.takeWhile (fun c => c != '@'))

/-- `isUsernameTaken(username)`: the query
`where('username', '==', username)` returns a non-empty snapshot. -/
def isUsernameTaken (s : UserStore) (username : String) : Bool :=
  s.any (fun e => e.2.username == some username)

/-- The `n`-th candidate tried by the probing loop:
`base` itself, then `` `${base}${n}` `` for `n ≥ 1`. -/
def candidate (base : String) : Nat → String
  | 0 => base
  | Nat.succ k => base ++ toString (k + 1)

/-- The probing loop `while (await this.isUsernameTaken(tempUsername))`,
with explicit fuel: starting from candidate index `k`, return the first
candidate not taken, falling back to the current candidate when fuel runs
out (with fuel exceeding the store size the fallback is unreachable). -/
def probeFrom (s : UserStore) (base : String) : Nat → Nat → String
  | 0, k => candidate base k
  | Nat.succ fuel, k =>
    if isUsernameTaken s (candidate base k) then probeFrom s base fuel (k + 1)
    else candidate base k

/-- Username derivation of `upsertProfile` when `username` is absent and
`email` is present: probe `base`, `base1`, `base2`, ... until free. -/
def deriveUsername (s : UserStore) (base : String) : String :=
  probeFrom s base (s.length + 2) 0

/-- `upsertProfile(userId, data)` (identical in both user-service
variants): derive a username when `data.username` is falsy and
`data.email` truthy, assemble the document (optional fields only when
truthy, undefined fields stripped, `none` here), then `setDoc` with merge.
Returns the assembled `userData`, as the source does. -/
def upsertProfile (s : UserStore) (now : Nat) (userId : UserId) (data : ProfileData) :
    UserProfile × UserStore :=
  let qrCode := generateQRCode userId
  let username : Option String :=
    if !(jsTruthyStr data.username) && jsTruthyStr data.email then
      some (deriveUsername s (localPart (data.email.getD "")))
    else data.username
  let userData : UserProfile :=
    { id := some userId
      email := data.email
      username := username
      qrCode := some qrCode
      lastSeen := some now
      displayName := if jsTruthyStr data.displayName then data.displayName else none
      photoURL := if jsTruthyStr data.photoURL then data.photoURL else none
      status := if jsTruthyStr data.status then data.status else none }
  let merge : UserProfile → UserProfile := fun old =>
    { id := userData.id.or old.id
      email := userData.email.or old.email
      username := userData.username.or old.username
      qrCode := userData.qrCode.or old.qrCode
      lastSeen := userData.lastSeen.or old.lastSeen
      displayName := userData.displayName.or old.displayName
      photoURL := userData.photoURL.or old.photoURL
      status := userData.status.or old.status
      friends := old.friends
      friendRequests := old.friendRequests }
  (userData, setDocMerge s userId merge userData)

/-- `sendFriendRequest(senderId, receiverId)` (third user-service
variant, source lines 534-595): both documents must exist; fails with
"Already friends" when either `friends` list contains the other; fails
with "Friend request already sent" when `receiverId` is in the sender's
`sent` list or `senderId` is in the receiver's `received` list; otherwise
updates `friendRequests.sent` on the sender then `friendRequests.received`
on the receiver, via `arrayUnion`, as two separate writes. -/
def sendFriendRequest (s : UserStore) (senderId receiverId : UserId) :
    Except String Unit × UserStore :=
  match getUser s senderId, getUser s receiverId with
  | some senderData, some receiverData =>
    let senderFriends := senderData.friends.getD []
    let receiverFriends := receiverData.friends.getD []
    if senderFriends.contains receiverId || receiverFriends.contains senderId then
      (.error "Already friends", s)
    else
      let senderSentRequests := (senderData.friendRequests.getD {}).sent
      let receiverReceivedRequests := (receiverData.friendRequests.getD {}).received
      if senderSentRequests.contains receiverId || receiverReceivedRequests.contains senderId then
        (.error "Friend request already sent", s)
      else
        let s1 := updateUser s senderId (fun d =>
          let fr := d.friendRequests.getD {}
          let fr' : FriendRequests := { fr with sent := arrayUnion fr.sent receiverId }
          { d with friendRequests := some fr' })
        let s2 := updateUser s1 receiverId (fun d =>
          let fr := d.friendRequests.getD {}
          let fr' : FriendRequests := { fr with received := arrayUnion fr.received senderId }
          { d with friendRequests := some fr' })
        (.ok (), s2)
  | _, _ => (.error "User not found", s)

/-- `acceptFriendRequest(userId, friendId)` (source lines 597-644): both
documents are read first; fails with "Friend request not found" unless
`friendId` is in the user's `received` list; then the user document and
the friend document are rewritten (read-modify-write from the initially
read data): the edge is filtered out of `received`/`sent` and each id is
appended to the other's `friends`. -/
def acceptFriendRequest (s : UserStore) (userId friendId : UserId) :
    Except String Unit × UserStore :=
  match getUser s userId, getUser s friendId with
  | some userData, some friendData =>
    if !(((userData.friendRequests.getD {}).received).contains friendId) then
      (.error "Friend request not found", s)
    else
      let userFR : FriendRequests :=
        { sent := (userData.friendRequests.getD {}).sent
          received := ((userData.friendRequests.getD {}).received).filter
            (fun id => !(id == friendId)) }
      let friendFR : FriendRequests :=
        { sent := ((friendData.friendRequests.getD {}).sent).filter
            (fun id => !(id == userId))
          received := (friendData.friendRequests.getD {}).received }
      let s1 := updateUser s userId (fun d =>
        { d with
          friendRequests := some userFR
          friends := some ((userData.friends.getD []) ++ [friendId]) })
      let s2 := updateUser s1 friendId (fun d =>
        { d with
          friendRequests := some friendFR
          friends := some ((friendData.friends.getD []) ++ [userId]) })
      (.ok (), s2)
  | _, _ => (.error "User not found", s)

/-! ### Basic lemmas about the JS-object map embedding -/

theorem getEntry_setEntry {α : Type} (m : JsMap α) (k q : String) (v : α) :
    getEntry (setEntry m k v) q = if k = q then some v else getEntry m q := by
  induction m with
  | nil => simp [setEntry, getEntry]
  | cons e rest ih =>
    by_cases hek : e.1 = k
    · subst hek
      by_cases hq : e.1 = q
      · simp [setEntry, getEntry, hq]
      · simp [setEntry, getEntry, hq]
    · by_cases hq : e.1 = q
      · have hkq : ¬k = q := fun hh => hek (hq.trans hh.symm)
        have hqk : ¬q = k := fun hh => hkq hh.symm
        simp [setEntry, getEntry, hek, hq, hkq, hqk]
      · simp [setEntry, getEntry, hek, hq, ih]

theorem setEntry_setEntry {α : Type} (m : JsMap α) (k : String) (v w : α) :
    setEntry (setEntry m k v) k w = setEntry m k w := by
  induction m with
  | nil => simp [setEntry]
  | cons e rest ih =>
    by_cases hek : e.1 = k
    · simp [setEntry, hek]
    · simp [setEntry, hek, ih]

theorem getEntry_incEntry (m : JsMap Nat) (k q : String) :
    getEntry (incEntry m k) q =
      if k = q then some ((getEntry m q).getD 0 + 1) else getEntry m q := by
  induction m with
  | nil => simp [incEntry, getEntry]
  | cons e rest ih =>
    by_cases hek : e.1 = k
    · subst hek
      by_cases hq : e.1 = q
      · simp [incEntry, getEntry, hq]
      · simp [incEntry, getEntry, hq]
    · by_cases hq : e.1 = q
      · have hkq : ¬k = q := fun hh => hek (hq.trans hh.symm)
        have hqk : ¬q = k := fun hh => hkq hh.symm
        simp [incEntry, getEntry, hek, hq, hkq, hqk]
      · simp [incEntry, getEntry, hek, hq, ih]

/-- The keys of a JS-object map, in order. -/
def keys {α : Type} (m : JsMap α) : List String := m.map (fun e => e.1)

theorem getEntry_eq_none_iff {α : Type} (m : JsMap α) (q : String) :
    getEntry m q = none ↔ q ∉ keys m := by
  induction m with
  | nil => simp [getEntry, keys]
  | cons e rest ih =>
    by_cases hqe : e.1 = q
    · simp [getEntry, keys, hqe]
    · simp only [getEntry, keys, List.map_cons, List.mem_cons, if_neg hqe]
      simp only [keys] at ih
      rw [ih]
      constructor
      · intro hq
        rintro (hh | hh)
        · exact hqe hh.symm
        · exact hq hh
      · intro hq hh
        exact hq (Or.inr hh)

theorem keys_setEntry {α : Type} (m : JsMap α) (k : String) (v : α) :
    keys (setEntry m k v) = if k ∈ keys m then keys m else keys m ++ [k] := by
  induction m with
  | nil => simp [setEntry, keys]
  | cons e rest ih =>
    by_cases hek : e.1 = k
    · subst hek
      simp [setEntry, keys]
    · simp only [setEntry, if_neg hek, keys, List.map_cons, List.mem_cons]
      simp only [keys] at ih
      rw [ih]
      have hke : ¬k = e.1 := fun hh => hek hh.symm
      by_cases hmem : k ∈ rest.map (fun e => e.1)
      · simp [hmem, hke]
      · simp [hmem, hke]

theorem mem_keys_setEntry {α : Type} (m : JsMap α) (k q : String) (v : α) :
    q ∈ keys (setEntry m k v) ↔ q ∈ keys m ∨ q = k := by
  rw [keys_setEntry]
  by_cases hmem : k ∈ keys m
  · simp only [if_pos hmem]
    constructor
    · exact Or.inl
    · rintro (h | h)
      · exact h
      · exact h ▸ hmem
  · simp [if_neg hmem]

theorem nodup_keys_setEntry {α : Type} (m : JsMap α) (k : String) (v : α)
    (h : (keys m).Nodup) : (keys (setEntry m k v)).Nodup := by
  rw [keys_setEntry]
  by_cases hmem : k ∈ keys m
  · simpa [hmem]
  · simp [hmem, List.nodup_append, h]

/-- Folding JS property assignments whose value depends only on the key:
the resulting map reads back `f p` exactly on the keys written. -/
theorem getEntry_foldl_setEntry {α : Type} (f : String → α) (ps : List String)
    (acc : JsMap α) (q : String) :
    getEntry (ps.foldl (fun m p => setEntry m p (f p)) acc) q =
      if q ∈ ps then some (f q) else getEntry acc q := by
  induction ps generalizing acc with
  | nil => simp
  | cons p rest ih =>
    simp only [List.foldl_cons, ih, List.mem_cons]
    by_cases hq : q ∈ rest
    · simp [hq]
    · rw [getEntry_setEntry]
      by_cases hpq : p = q
      · simp [hpq, hq]
      · have hqp : ¬q = p := fun hh => hpq hh.symm
        simp [hpq, hqp, hq]

theorem nodup_keys_foldl_setEntry {α : Type} (f : String → α) (ps : List String)
    (acc : JsMap α) (h : (keys acc).Nodup) :
    (keys (ps.foldl (fun m p => setEntry m p (f p)) acc)).Nodup := by
  induction ps generalizing acc with
  | nil => simpa
  | cons p rest ih => exact ih _ (nodup_keys_setEntry acc p (f p) h)

theorem mem_keys_foldl_setEntry {α : Type} (f : String → α) (ps : List String)
    (acc : JsMap α) (q : String) :
    q ∈ keys (ps.foldl (fun m p => setEntry m p (f p)) acc) ↔ q ∈ ps ∨ q ∈ keys acc := by
  induction ps generalizing acc with
  | nil => simp
  | cons p rest ih =>
    simp only [List.foldl_cons, ih, mem_keys_setEntry, List.mem_cons]
    tauto

/-- Applying one `increment(1)` per key of a duplicate-free key list. -/
theorem getEntry_foldl_incEntry (L : List String) (uc : JsMap Nat) (q : String)
    (h : L.Nodup) :
    getEntry (L.foldl incEntry uc) q =
      if q ∈ L then some ((getEntry uc q).getD 0 + 1) else getEntry uc q := by
  induction L generalizing uc with
  | nil => simp
  | cons k rest ih =>
    simp only [List.nodup_cons] at h
    simp only [List.foldl_cons, ih _ h.2, List.mem_cons]
    by_cases hq : q ∈ rest
    · have hkq : ¬k = q := fun he => h.1 (he ▸ hq)
      rw [getEntry_incEntry]
      simp [hq, hkq]
    · rw [getEntry_incEntry]
      by_cases hkq : k = q
      · simp [hkq, hq]
      · have hqk : ¬q = k := fun hh => hkq hh.symm
        simp [hkq, hqk, hq]

/-! ### Store-level lemmas -/

theorem find?_map_setKey (l : List (RoomId × ChatRoom)) (R : RoomId) (room : ChatRoom)
    (h : (l.find? (fun e => e.1 == R)).isSome) :
    ((l.map (fun e => if e.1 = R then (R, room) else e)).find? (fun e => e.1 == R)) =
      some (R, room) := by
  induction l with
  | nil => simp at h
  | cons e rest ih =>
    by_cases he : e.1 = R
    · simp [List.find?_cons, he]
    · have hbe : (e.1 == R) = false := by simp [he]
      simp only [List.find?_cons, hbe, cond_false] at h
      simp only [List.map_cons, if_neg he, List.find?_cons, hbe, cond_false]
      exact ih h

theorem getRoom_setRoom_self (s : ChatStore) (R : RoomId) (room₀ room : ChatRoom)
    (h : getRoom s R = some room₀) : getRoom (setRoom s R room) R = some room := by
  have hsome : (s.rooms.find? (fun e => e.1 == R)).isSome := by
    simp only [getRoom] at h
    cases hf : s.rooms.find? (fun e => e.1 == R) with
    | none => rw [hf] at h; simp at h
    | some e => simp [hf]
  simp [getRoom, setRoom, find?_map_setKey s.rooms R room hsome]

theorem setRoom_setRoom (s : ChatStore) (R : RoomId) (r r' : ChatRoom) :
    setRoom (setRoom s R r) R r' = setRoom s R r' := by
  simp only [setRoom, List.map_map]
  congr 1
  apply List.map_congr_left
  intro e _
  by_cases he : e.1 = R <;> simp [he]

/-! ### Fold lemmas for the two `sendMessage` variants -/

theorem mem_keys_v1_updateKeys (S : UserId) (ps : List String) (acc : JsMap Unit)
    (q : String) :
    q ∈ keys (ps.foldl (fun m p => if p == S then m else setEntry m p ()) acc) ↔
      (q ∈ ps ∧ q ≠ S) ∨ q ∈ keys acc := by
  induction ps generalizing acc with
  | nil => simp
  | cons p rest ih =>
    simp only [List.foldl_cons]
    by_cases hp : p = S
    · have hb : (p == S) = true := beq_iff_eq.mpr hp
      rw [hb, if_pos rfl, ih]
      subst hp
      simp only [List.mem_cons]
      constructor
      · rintro (⟨hm, hne⟩ | hacc)
        · exact Or.inl ⟨Or.inr hm, hne⟩
        · exact Or.inr hacc
      · rintro (⟨hm | hm, hne⟩ | hacc)
        · exact absurd hm hne
        · exact Or.inl ⟨hm, hne⟩
        · exact Or.inr hacc
    · have hb : (p == S) = false := by simp [hp]
      rw [hb]
      simp only [Bool.false_eq_true, if_false, ih, mem_keys_setEntry, List.mem_cons]
      constructor
      · rintro (⟨hm, hne⟩ | hacc | hqp)
        · exact Or.inl ⟨Or.inr hm, hne⟩
        · exact Or.inr hacc
        · exact Or.inl ⟨Or.inl hqp, hqp ▸ hp⟩
      · rintro (⟨hm | hm, hne⟩ | hacc)
        · exact Or.inr (Or.inr hm)
        · exact Or.inl ⟨hm, hne⟩
        · exact Or.inr (Or.inl hacc)

theorem nodup_keys_v1_updateKeys (S : UserId) (ps : List String) (acc : JsMap Unit)
    (h : (keys acc).Nodup) :
    (keys (ps.foldl (fun m p => if p == S then m else setEntry m p ()) acc)).Nodup := by
  induction ps generalizing acc with
  | nil => simpa
  | cons p rest ih =>
    simp only [List.foldl_cons]
    by_cases hp : p = S
    · have hb : (p == S) = true := beq_iff_eq.mpr hp
      rw [hb, if_pos rfl]
      exact ih acc h
    · have hb : (p == S) = false := by simp [hp]
      rw [hb]
      simp only [Bool.false_eq_true, if_false]
      exact ih _ (nodup_keys_setEntry acc p () h)

theorem v2_fold_split (activeUsers : JsMap Bool) (S : UserId) (ps : List String)
    (a : JsMap Bool) (b : JsMap CounterUpd) :
    ps.foldl (fun acc p =>
        let v := getEntry activeUsers p == some true || p == S
        (setEntry acc.1 p v,
         if !v then setEntry acc.2 p CounterUpd.incr else setEntry acc.2 p CounterUpd.setZero))
      (a, b)
    = (ps.foldl (fun m p => setEntry m p (getEntry activeUsers p == some true || p == S)) a,
       ps.foldl (fun m p => setEntry m p
         (if getEntry activeUsers p == some true || p == S then CounterUpd.setZero
          else CounterUpd.incr)) b) := by
  induction ps generalizing a b with
  | nil => rfl
  | cons p rest ih =>
    simp only [List.foldl_cons, ih]
    congr 2
    by_cases hv : (getEntry activeUsers p == some true || p == S) = true <;> simp [hv]

theorem getEntry_foldl_applyUpd (M : JsMap CounterUpd) (uc : JsMap Nat) (q : String)
    (h : (keys M).Nodup) :
    getEntry (M.foldl (fun uc e =>
        match e.2 with
        | CounterUpd.incr => incEntry uc e.1
        | CounterUpd.setZero => setEntry uc e.1 0) uc) q =
      match getEntry M q with
      | some CounterUpd.incr => some ((getEntry uc q).getD 0 + 1)
      | some CounterUpd.setZero => some 0
      | none => getEntry uc q := by
  induction M generalizing uc with
  | nil => simp [getEntry]
  | cons e rest ih =>
    simp only [keys, List.map_cons, List.nodup_cons] at h
    have hknotin : e.1 ∉ keys rest := by simpa [keys] using h.1
    have hnodup : (keys rest).Nodup := by simpa [keys] using h.2
    simp only [List.foldl_cons, ih _ hnodup]
    by_cases hq : e.1 = q
    · have hrest : getEntry rest q = none :=
        (getEntry_eq_none_iff rest q).mpr (hq ▸ hknotin)
      rw [hrest]
      simp only [getEntry, if_pos hq]
      cases hu : e.2 with
      | incr => rw [getEntry_incEntry]; simp [hq]
      | setZero => rw [getEntry_setEntry]; simp [hq]
    · have hM : getEntry (e :: rest) q = getEntry rest q := by
        simp [getEntry, hq]
      rw [hM]
      have happ : getEntry (match e.2 with
          | CounterUpd.incr => incEntry uc e.1
          | CounterUpd.setZero => setEntry uc e.1 0) q = getEntry uc q := by
        cases e.2 with
        | incr => rw [getEntry_incEntry]; simp [hq]
        | setZero => rw [getEntry_setEntry]; simp [hq]
      rw [happ]

/-- Full characterization of the first variant's `sendMessage` on an
existing room: the returned id, the appended message, the `readBy` map
(`true` exactly for the sender among participants), the `lastMessage`
snapshot, and the unread counters (incremented for every non-sender
participant, all other keys, the sender included, left unchanged). -/
theorem v1_sendMessage_spec (s : ChatStore) (R : RoomId) (S : UserId) (text : String)
    (room : ChatRoom) (hroom : getRoom s R = some room) :
    (V1.sendMessage s R S text).1 = Except.ok (toString s.nextId) ∧
    ∃ room₁ msg,
      getRoom (V1.sendMessage s R S text).2 R = some room₁ ∧
      room₁.messages = room.messages ++ [(toString s.nextId, msg)] ∧
      msg.text = text ∧ msg.senderId = S ∧ msg.timestamp = s.now ∧
      (∀ q, getEntry msg.readBy q =
        if q ∈ room.participants then some (q == S) else none) ∧
      room₁.lastMessage = some { text := text, timestamp := s.now, senderId := S,
                                 readBy := msg.readBy } ∧
      (∀ q, getEntry room₁.unreadCount q =
        if q ∈ room.participants ∧ q ≠ S
        then some ((getEntry room.unreadCount q).getD 0 + 1)
        else getEntry room.unreadCount q) := by
  have hunfold :
      V1.sendMessage s R S text =
        (let readBy : JsMap Bool :=
          room.participants.foldl
            (fun m participantId => setEntry m participantId (participantId == S)) []
        let message : Message :=
          { text := text, senderId := S, timestamp := s.now, readBy := readBy }
        let updateKeys : JsMap Unit :=
          room.participants.foldl
            (fun m participantId =>
              if participantId == S then m else setEntry m participantId ()) []
        let room' : ChatRoom := { room with
          messages := room.messages ++ [(toString s.nextId, message)]
          lastMessage := some { text := text, timestamp := s.now, senderId := S,
                                readBy := readBy }
          unreadCount := updateKeys.foldl (fun uc e => incEntry uc e.1) room.unreadCount }
        (.ok (toString s.nextId), { setRoom s R room' with nextId := s.nextId + 1 })) := by
    rw [V1.sendMessage, hroom]
  rw [hunfold]
  refine ⟨rfl, ?_⟩
  refine ⟨_, ⟨text, S, s.now,
      room.participants.foldl (fun m p => setEntry m p (p == S)) []⟩,
    getRoom_setRoom_self s R room _ hroom, rfl, rfl, rfl, rfl, ?_, rfl, ?_⟩
  · intro q
    rw [getEntry_foldl_setEntry (fun p => p == S) room.participants [] q]
    by_cases hq : q ∈ room.participants <;> simp [hq, getEntry]
  · intro q
    show getEntry
        ((room.participants.foldl
          (fun m participantId =>
            if participantId == S then m else setEntry m participantId ()) []).foldl
          (fun uc e => incEntry uc e.1) room.unreadCount) q = _
    rw [← List.foldl_map (fun (e : String × Unit) => e.1) incEntry]
    rw [getEntry_foldl_incEntry
        (List.map (fun (e : String × Unit) => e.1)
          (room.participants.foldl
            (fun m participantId =>
              if participantId == S then m else setEntry m participantId ()) []))
        room.unreadCount q
        (nodup_keys_v1_updateKeys S room.participants [] (by simp [keys]))]
    have hmem : (q ∈ (List.map (fun (e : String × Unit) => e.1)
        (room.participants.foldl
          (fun m participantId =>
            if participantId == S then m else setEntry m participantId ()) []))) ↔
        (q ∈ room.participants ∧ q ≠ S) := by
      have := mem_keys_v1_updateKeys S room.participants [] q
      simp only [keys] at this
      rw [this]
      simp [keys]
    by_cases hq : q ∈ room.participants ∧ q ≠ S
    · rw [if_pos (hmem.mpr hq), if_pos hq]
    · rw [if_neg (fun hh => hq (hmem.mp hh)), if_neg hq]

/-- Full characterization of the second, presence-aware variant's
`sendMessage` on an existing room with non-empty inputs: the appended
message, the `readBy` map (`true` exactly for the sender and the
participants flagged active), the `lastMessage` snapshot, and the unread
counters (reset to 0 for `readBy`-true participants, incremented by one
for the others; non-participant keys untouched). -/
theorem v2_sendMessage_spec (s : ChatStore) (R : RoomId) (S : UserId) (text : String)
    (room : ChatRoom) (hroom : getRoom s R = some room)
    (hR : ¬R = "") (hS : ¬S = "") (htext : ¬jsTrim text = "") :
    (∃ m, (V2.sendMessage s R S text).1 = Except.ok (toString s.nextId, m)) ∧
    ∃ room₂ msg,
      getRoom (V2.sendMessage s R S text).2 R = some room₂ ∧
      room₂.messages = room.messages ++ [(toString s.nextId, msg)] ∧
      msg.text = jsTrim text ∧ msg.senderId = S ∧ msg.timestamp = s.now ∧
      (∀ q, getEntry msg.readBy q =
        if q ∈ room.participants
        then some (getEntry room.activeUsers q == some true || q == S) else none) ∧
      room₂.lastMessage = some { text := jsTrim text, timestamp := s.now, senderId := S,
                                 readBy := msg.readBy } ∧
      (∀ q, q ∈ room.participants →
        getEntry room₂.unreadCount q =
          if getEntry room.activeUsers q == some true || q == S then some 0
          else some ((getEntry room.unreadCount q).getD 0 + 1)) ∧
      (∀ q, q ∉ room.participants →
        getEntry room₂.unreadCount q = getEntry room.unreadCount q) := by
  have hguard : (R == "" || S == "" || jsTrim text == "") = false := by
    simp [hR, hS, htext]
  have hunfold : V2.sendMessage s R S text =
      (let PF := room.participants.foldl
        (fun acc p =>
          let v := getEntry room.activeUsers p == some true || p == S
          (setEntry acc.1 p v,
           if !v then setEntry acc.2 p CounterUpd.incr
           else setEntry acc.2 p CounterUpd.setZero))
        (([], []) : JsMap Bool × JsMap CounterUpd)
      let msg : Message :=
        { text := jsTrim text, senderId := S, timestamp := s.now, readBy := PF.1 }
      let room' : ChatRoom := { room with
        messages := room.messages ++ [(toString s.nextId, msg)]
        lastMessage := some { text := msg.text, timestamp := msg.timestamp,
                              senderId := msg.senderId, readBy := msg.readBy }
        unreadCount := PF.2.foldl
          (fun uc e =>
            match e.2 with
            | CounterUpd.incr => incEntry uc e.1
            | CounterUpd.setZero => setEntry uc e.1 0) room.unreadCount }
      let s' := setRoom s R room'
      ((Except.ok (toString s.nextId, msg) : Except String (String × Message)),
       { s' with nextId := s.nextId + 1 })) := by
    rw [V2.sendMessage, hguard, if_neg Bool.false_ne_true, hroom]
  rw [hunfold]
  simp only [v2_fold_split]
  refine ⟨⟨_, rfl⟩, _,
    ⟨jsTrim text, S, s.now,
      room.participants.foldl
        (fun m p => setEntry m p (getEntry room.activeUsers p == some true || p == S)) []⟩,
    getRoom_setRoom_self s R room _ hroom, rfl, rfl, rfl, rfl, ?_, rfl, ?_, ?_⟩
  · intro q
    rw [getEntry_foldl_setEntry
        (fun p => getEntry room.activeUsers p == some true || p == S) room.participants [] q]
    by_cases hq : q ∈ room.participants <;> simp [hq, getEntry]
  · intro q hq
    rw [getEntry_foldl_applyUpd _ room.unreadCount q
        (nodup_keys_foldl_setEntry
          (fun p => if getEntry room.activeUsers p == some true || p == S
            then CounterUpd.setZero else CounterUpd.incr)
          room.participants [] (by simp [keys]))]
    rw [getEntry_foldl_setEntry
        (fun p => if getEntry room.activeUsers p == some true || p == S
          then CounterUpd.setZero else CounterUpd.incr)
        room.participants [] q]
    rw [if_pos hq]
    by_cases hcond : (getEntry room.activeUsers q == some true || q == S) = true
    · rw [if_pos hcond, if_pos hcond]
    · rw [if_neg hcond, if_neg hcond]
  · intro q hq
    rw [getEntry_foldl_applyUpd _ room.unreadCount q
        (nodup_keys_foldl_setEntry
          (fun p => if getEntry room.activeUsers p == some true || p == S
            then CounterUpd.setZero else CounterUpd.incr)
          room.participants [] (by simp [keys]))]
    rw [getEntry_foldl_setEntry
        (fun p => if getEntry room.activeUsers p == some true || p == S
          then CounterUpd.setZero else CounterUpd.incr)
        room.participants [] q]
    rw [if_neg hq]
    rfl

/-! ### Concrete sample stores used by witnesses and counterexamples -/

/-- A private room between "a" and "b" where the sender "a" still has 5
unread messages and "b" is flagged active. -/
def roomC1 : ChatRoom :=
  { type := "private", participants := ["a", "b"],
    lastMessage := some { text := "Chat created", timestamp := 0, senderId := "a",
                          readBy := [("a", true), ("b", false)] },
    unreadCount := [("a", 5), ("b", 1)], activeUsers := [("b", true)] }

def storeC1 : ChatStore := { rooms := [("1", roomC1)], nextId := 7, now := 3 }

def emptyChatStore : ChatStore := { rooms := [] }

/-- C1: for every existing room R and participant sender S, a successful
`sendMessage` appends one message whose `readBy` maps S to true and every
other participant P to false (first variant) or to true exactly when P is
flagged active in `activeUsers` (second, presence-aware variant), and in
the same batch sets `lastMessage` to that message's snapshot and
increments `unreadCount[P]` by exactly 1 for every participant whose
computed `readBy` is false.  Amended against the claim: participants whose
computed `readBy` is true are reset to 0 only in the presence-aware
variant; the first variant leaves their counters (the sender's included)
unchanged, so `unreadCount[S]` ends at 0 only in the presence-aware
variant. -/
theorem sendMessage_appends_and_updates_counters
    (s : ChatStore) (R : RoomId) (S : UserId) (text : String)
    (room : ChatRoom) (hroom : getRoom s R = some room) (_hSmem : S ∈ room.participants)
    (hR : ¬R = "") (hS : ¬S = "") (htext : ¬jsTrim text = "") :
    ((V1.sendMessage s R S text).1 = Except.ok (toString s.nextId) ∧
     ∃ room₁ msg,
       getRoom (V1.sendMessage s R S text).2 R = some room₁ ∧
       room₁.messages = room.messages ++ [(toString s.nextId, msg)] ∧
       msg.text = text ∧ msg.senderId = S ∧ msg.timestamp = s.now ∧
       (∀ q, getEntry msg.readBy q =
         if q ∈ room.participants then some (q == S) else none) ∧
       room₁.lastMessage = some { text := text, timestamp := s.now, senderId := S,
                                  readBy := msg.readBy } ∧
       (∀ q, getEntry room₁.unreadCount q =
         if q ∈ room.participants ∧ q ≠ S
         then some ((getEntry room.unreadCount q).getD 0 + 1)
         else getEntry room.unreadCount q))
    ∧
    ((∃ m, (V2.sendMessage s R S text).1 = Except.ok (toString s.nextId, m)) ∧
     ∃ room₂ msg,
       getRoom (V2.sendMessage s R S text).2 R = some room₂ ∧
       room₂.messages = room.messages ++ [(toString s.nextId, msg)] ∧
       msg.text = jsTrim text ∧ msg.senderId = S ∧ msg.timestamp = s.now ∧
       (∀ q, getEntry msg.readBy q =
         if q ∈ room.participants
         then some (getEntry room.activeUsers q == some true || q == S) else none) ∧
       room₂.lastMessage = some { text := jsTrim text, timestamp := s.now, senderId := S,
                                  readBy := msg.readBy } ∧
       (∀ q, q ∈ room.participants →
         getEntry room₂.unreadCount q =
           if getEntry room.activeUsers q == some true || q == S then some 0
           else some ((getEntry room.unreadCount q).getD 0 + 1)) ∧
       (∀ q, q ∉ room.participants →
         getEntry room₂.unreadCount q = getEntry room.unreadCount q)) :=
  ⟨v1_sendMessage_spec s R S text room hroom,
   v2_sendMessage_spec s R S text room hroom hR hS htext⟩

/-- C1 witness: the theorem applied to the concrete store `storeC1`. -/
theorem sendMessage_appends_and_updates_counters_witness :
    (V1.sendMessage storeC1 "1" "a" "hi").1 = Except.ok "7" ∧
    (∃ m, (V2.sendMessage storeC1 "1" "a" "hi").1 = Except.ok ("7", m)) :=
  ⟨(sendMessage_appends_and_updates_counters storeC1 "1" "a" "hi" roomC1 rfl
      (by decide) (by decide) (by decide) (by decide)).1.1,
   (sendMessage_appends_and_updates_counters storeC1 "1" "a" "hi" roomC1 rfl
      (by decide) (by decide) (by decide) (by decide)).2.1⟩

/-- C1 counterexample: in the first variant a successful send by "a"
(whose stored unread counter is 5) leaves `unreadCount["a"]` at 5 instead
of resetting it to 0 as the claim requires for participants whose computed
`readBy` is true. -/
theorem sendMessage_v1_sender_counter_not_reset :
    (V1.sendMessage storeC1 "1" "a" "hi").1 = Except.ok "7" ∧
    (getRoom (V1.sendMessage storeC1 "1" "a" "hi").2 "1").map
      (fun r => getEntry r.unreadCount "a") = some (some 5) :=
  ⟨rfl, rfl⟩

/-- C4: exact failure conditions of `sendMessage`, amended: the first
variant fails exactly when the room is missing (empty text is accepted and
appended); the second variant fails exactly when the room id, the sender
id, or the trimmed text is empty, or the room is missing.  In every
failing case the returned store is the input store (nothing is written);
in every other case the send succeeds. -/
theorem sendMessage_failure_conditions
    (s : ChatStore) (R : RoomId) (S : UserId) (text : String) :
    ((getRoom s R = none →
        V1.sendMessage s R S text = (Except.error "Chat room not found", s)) ∧
     (getRoom s R ≠ none → ∃ mid, (V1.sendMessage s R S text).1 = Except.ok mid))
    ∧
    ((R = "" ∨ S = "" ∨ jsTrim text = "" →
        V2.sendMessage s R S text =
          (Except.error "Chat ID, sender ID, and message text are required", s)) ∧
     (¬R = "" → ¬S = "" → ¬jsTrim text = "" → getRoom s R = none →
        V2.sendMessage s R S text = (Except.error "Chat room not found", s)) ∧
     (¬R = "" → ¬S = "" → ¬jsTrim text = "" → getRoom s R ≠ none →
        ∃ res, (V2.sendMessage s R S text).1 = Except.ok res)) := by
  refine ⟨⟨?_, ?_⟩, ?_, ?_, ?_⟩
  · intro h
    rw [V1.sendMessage, h]
  · intro h
    match hr : getRoom s R with
    | none => exact absurd hr h
    | some room => exact ⟨toString s.nextId, (v1_sendMessage_spec s R S text room hr).1⟩
  · intro h
    have hguard : (R == "" || S == "" || jsTrim text == "") = true := by
      rcases h with h | h | h <;> simp [h]
    rw [V2.sendMessage, hguard, if_pos rfl]
  · intro hR hS htext h
    have hguard : (R == "" || S == "" || jsTrim text == "") = false := by
      simp [hR, hS, htext]
    rw [V2.sendMessage, hguard, if_neg Bool.false_ne_true, h]
  · intro hR hS htext h
    match hr : getRoom s R with
    | none => exact absurd hr h
    | some room =>
      obtain ⟨m, hm⟩ := (v2_sendMessage_spec s R S text room hr hR hS htext).1
      exact ⟨(toString s.nextId, m), hm⟩

/-- C4 witness: the failure characterization applied at concrete inputs:
a missing room fails with "Chat room not found" leaving the store
unchanged, and a send into an existing room succeeds. -/
theorem sendMessage_failure_conditions_witness :
    V1.sendMessage emptyChatStore "1" "a" "hi" =
      (Except.error "Chat room not found", emptyChatStore) ∧
    (∃ res, (V2.sendMessage storeC1 "1" "a" "hi").1 = Except.ok res) :=
  ⟨(sendMessage_failure_conditions emptyChatStore "1" "a" "hi").1.1 rfl,
   (sendMessage_failure_conditions storeC1 "1" "a" "hi").2.2.2
     (by decide) (by decide) (by decide) (by simp [getRoom, storeC1])⟩

/-- C4 counterexample: the first variant accepts text that is empty after
trimming: the send succeeds and appends a message, where the claim
requires failure. -/
theorem sendMessage_v1_accepts_empty_text :
    (V1.sendMessage storeC1 "1" "a" "").1 = Except.ok "7" ∧
    (getRoom (V1.sendMessage storeC1 "1" "a" "").2 "1").map
      (fun r => r.messages.length) = some 1 :=
  ⟨rfl, rfl⟩

/-! ### Lemmas for `markMessagesAsRead` -/

/-- The relation between a message list and its marked-as-read image:
ids, texts, senders, timestamps and the other users' receipts are
untouched, and the `readBy` entry of `X` is flipped to `true` exactly when
it was present and `false`. -/
def MarkRel (X : String) (e e' : String × Message) : Prop :=
  e'.1 = e.1 ∧ e'.2.text = e.2.text ∧ e'.2.senderId = e.2.senderId ∧
  e'.2.timestamp = e.2.timestamp ∧
  (∀ q, ¬q = X → getEntry e'.2.readBy q = getEntry e.2.readBy q) ∧
  getEntry e'.2.readBy X =
    (if getEntry e.2.readBy X = some false then some true else getEntry e.2.readBy X)

theorem mark_map_readBy (X : String) (msgs : List (String × Message)) :
    List.Forall₂ (MarkRel X) msgs
      (msgs.map (fun e =>
        if getEntry e.2.readBy X == some false then
          (e.1, { e.2 with readBy := setEntry e.2.readBy X true })
        else e)) := by
  rw [List.forall₂_map_right_iff, List.forall₂_same]
  intro e _
  by_cases hc : getEntry e.2.readBy X = some false
  · have hb : (getEntry e.2.readBy X == some false) = true := by simp [hc]
    rw [hb, if_pos rfl]
    refine ⟨rfl, rfl, rfl, rfl, ?_, ?_⟩
    · intro q hq
      rw [getEntry_setEntry, if_neg (fun hh => hq hh.symm)]
    · rw [getEntry_setEntry, if_pos rfl, if_pos hc]
  · have hb : (getEntry e.2.readBy X == some false) = false := by simp [hc]
    rw [hb]
    simp only [Bool.false_eq_true, if_false]
    exact ⟨rfl, rfl, rfl, rfl, fun q _ => rfl, by rw [if_neg hc]⟩

theorem mark_map_idem (X : String) (msgs : List (String × Message)) :
    (msgs.map (fun e =>
      if getEntry e.2.readBy X == some false then
        (e.1, { e.2 with readBy := setEntry e.2.readBy X true })
      else e)).map (fun e =>
        if getEntry e.2.readBy X == some false then
          (e.1, { e.2 with readBy := setEntry e.2.readBy X true })
        else e)
    = msgs.map (fun e =>
        if getEntry e.2.readBy X == some false then
          (e.1, { e.2 with readBy := setEntry e.2.readBy X true })
        else e) := by
  rw [List.map_map]
  apply List.map_congr_left
  intro e _
  show (fun e =>
    if getEntry e.2.readBy X == some false then
      (e.1, { e.2 with readBy := setEntry e.2.readBy X true })
    else e) (if getEntry e.2.readBy X == some false then
      (e.1, { e.2 with readBy := setEntry e.2.readBy X true })
    else e) = _
  by_cases hc : getEntry e.2.readBy X = some false
  · have hb : (getEntry e.2.readBy X == some false) = true := by simp [hc]
    rw [hb, if_pos rfl]
    have hset : getEntry (setEntry e.2.readBy X true) X = some true := by
      rw [getEntry_setEntry, if_pos rfl]
    simp only [hset]
    rfl
  · have hb : (getEntry e.2.readBy X == some false) = false := by simp [hc]
    rw [hb]
    simp only [Bool.false_eq_true, if_false, hb]

/-- The room document written by the first variant's mark-as-read batch. -/
def markedRoomV1 (room : ChatRoom) (X : UserId) : ChatRoom :=
  { room with
    messages := room.messages.map (fun e =>
      if getEntry e.2.readBy X == some false then
        (e.1, { e.2 with readBy := setEntry e.2.readBy X true })
      else e)
    unreadCount := setEntry room.unreadCount X 0
    lastMessage := room.lastMessage.map
      (fun lm => { lm with readBy := setEntry lm.readBy X true }) }

theorem v1_mark_unfold (s : ChatStore) (R : RoomId) (X : UserId) (room : ChatRoom)
    (hroom : getRoom s R = some room) :
    V1.markMessagesAsRead s R X = (Except.ok (), setRoom s R (markedRoomV1 room X)) := by
  rw [V1.markMessagesAsRead, hroom]
  rfl

theorem lastMessage_mark_idem (o : Option LastMessage) (X : String) :
    (o.map (fun lm => { lm with readBy := setEntry lm.readBy X true })).map
      (fun lm => { lm with readBy := setEntry lm.readBy X true })
    = o.map (fun lm => { lm with readBy := setEntry lm.readBy X true }) := by
  cases o with
  | none => rfl
  | some lm =>
    refine congrArg some ?_
    show ({ lm with readBy := setEntry (setEntry lm.readBy X true) X true } : LastMessage) = _
    rw [setEntry_setEntry]

theorem markedRoomV1_idem (room : ChatRoom) (X : UserId) :
    markedRoomV1 (markedRoomV1 room X) X = markedRoomV1 room X := by
  unfold markedRoomV1
  congr 1
  · exact lastMessage_mark_idem room.lastMessage X
  · exact setEntry_setEntry room.unreadCount X 0 0
  · exact mark_map_idem X room.messages

/-- The `!=`-query predicate agrees with the `== false` predicate on the
boolean-valued receipts actually stored. -/
theorem notTrueEntry_eq (m : JsMap Bool) (k : String) :
    V2.notTrueEntry m k = (getEntry m k == some false) := by
  unfold V2.notTrueEntry
  cases h : getEntry m k with
  | none => rfl
  | some b => cases b <;> rfl

theorem v2_map_eq_v1_map (X : String) (msgs : List (String × Message)) :
    msgs.map (fun e =>
      if V2.notTrueEntry e.2.readBy X then
        (e.1, { e.2 with readBy := setEntry e.2.readBy X true })
      else e)
    = msgs.map (fun e =>
        if getEntry e.2.readBy X == some false then
          (e.1, { e.2 with readBy := setEntry e.2.readBy X true })
        else e) := by
  apply List.map_congr_left
  intro e _
  rw [notTrueEntry_eq]

/-- The room document written by the second variant's mark-as-read batch
(which also flags the reader as active). -/
def markedRoomV2 (room : ChatRoom) (X : UserId) : ChatRoom :=
  { room with
    messages := room.messages.map (fun e =>
      if V2.notTrueEntry e.2.readBy X then
        (e.1, { e.2 with readBy := setEntry e.2.readBy X true })
      else e)
    unreadCount := setEntry room.unreadCount X 0
    lastMessage := room.lastMessage.map
      (fun lm => { lm with readBy := setEntry lm.readBy X true })
    activeUsers := setEntry room.activeUsers X true }

theorem v2_mark_unfold (s : ChatStore) (R : RoomId) (X : UserId) (room : ChatRoom)
    (hroom : getRoom s R = some room) :
    V2.markMessagesAsRead s R X = (Except.ok (), setRoom s R (markedRoomV2 room X)) := by
  rw [V2.markMessagesAsRead, hroom]
  rfl

theorem markedRoomV2_idem (room : ChatRoom) (X : UserId) :
    markedRoomV2 (markedRoomV2 room X) X = markedRoomV2 room X := by
  unfold markedRoomV2
  congr 1
  · exact lastMessage_mark_idem room.lastMessage X
  · exact setEntry_setEntry room.unreadCount X 0 0
  · exact setEntry_setEntry room.activeUsers X true true
  · rw [v2_map_eq_v1_map, v2_map_eq_v1_map X room.messages]
    exact mark_map_idem X room.messages

/-- C2 (amended): for every existing room R and user X,
`markMessagesAsRead(R, X)` sets `readBy[X]` to true on every message of R
whose `readBy[X]` entry is present and false, leaving messages in which X
has no `readBy` entry untouched (the store's equality and not-equal
filters both skip documents missing the field); in the same batch it sets
`unreadCount[X]` to 0 and `lastMessage.readBy[X]` to true (the second
variant also sets `activeUsers[X]` to true); the operation is idempotent:
calling it twice yields exactly the state of calling it once. -/
theorem markMessagesAsRead_flips_present_and_idempotent
    (s : ChatStore) (R : RoomId) (X : UserId) (room : ChatRoom)
    (hroom : getRoom s R = some room) :
    ((V1.markMessagesAsRead s R X).1 = Except.ok () ∧
     V1.markMessagesAsRead (V1.markMessagesAsRead s R X).2 R X =
       V1.markMessagesAsRead s R X ∧
     ∃ room', getRoom (V1.markMessagesAsRead s R X).2 R = some room' ∧
       List.Forall₂ (MarkRel X) room.messages room'.messages ∧
       getEntry room'.unreadCount X = some 0 ∧
       (∀ q, ¬q = X → getEntry room'.unreadCount q = getEntry room.unreadCount q) ∧
       (∀ lm, room.lastMessage = some lm →
         ∃ lm', room'.lastMessage = some lm' ∧ getEntry lm'.readBy X = some true ∧
           (∀ q, ¬q = X → getEntry lm'.readBy q = getEntry lm.readBy q)))
    ∧
    ((V2.markMessagesAsRead s R X).1 = Except.ok () ∧
     V2.markMessagesAsRead (V2.markMessagesAsRead s R X).2 R X =
       V2.markMessagesAsRead s R X ∧
     ∃ room', getRoom (V2.markMessagesAsRead s R X).2 R = some room' ∧
       List.Forall₂ (MarkRel X) room.messages room'.messages ∧
       getEntry room'.unreadCount X = some 0 ∧
       (∀ q, ¬q = X → getEntry room'.unreadCount q = getEntry room.unreadCount q) ∧
       getEntry room'.activeUsers X = some true ∧
       (∀ q, ¬q = X → getEntry room'.activeUsers q = getEntry room.activeUsers q) ∧
       (∀ lm, room.lastMessage = some lm →
         ∃ lm', room'.lastMessage = some lm' ∧ getEntry lm'.readBy X = some true ∧
           (∀ q, ¬q = X → getEntry lm'.readBy q = getEntry lm.readBy q))) := by
  constructor
  · rw [v1_mark_unfold s R X room hroom]
    refine ⟨rfl, ?_, markedRoomV1 room X,
      getRoom_setRoom_self s R room _ hroom, ?_, ?_, ?_, ?_⟩
    · rw [v1_mark_unfold _ R X (markedRoomV1 room X)
          (getRoom_setRoom_self s R room _ hroom)]
      rw [markedRoomV1_idem, setRoom_setRoom]
    · exact mark_map_readBy X room.messages
    · show getEntry (setEntry room.unreadCount X 0) X = some 0
      rw [getEntry_setEntry, if_pos rfl]
    · intro q hq
      show getEntry (setEntry room.unreadCount X 0) q = _
      rw [getEntry_setEntry, if_neg (fun hh => hq hh.symm)]
    · intro lm hlm
      refine ⟨{ lm with readBy := setEntry lm.readBy X true }, ?_, ?_, ?_⟩
      · show (room.lastMessage.map
          (fun lm => ({ lm with readBy := setEntry lm.readBy X true } : LastMessage))) = _
        rw [hlm, Option.map_some']
      · rw [getEntry_setEntry, if_pos rfl]
      · intro q hq
        rw [getEntry_setEntry, if_neg (fun hh => hq hh.symm)]
  · rw [v2_mark_unfold s R X room hroom]
    refine ⟨rfl, ?_, markedRoomV2 room X,
      getRoom_setRoom_self s R room _ hroom, ?_, ?_, ?_, ?_, ?_, ?_⟩
    · rw [v2_mark_unfold _ R X (markedRoomV2 room X)
          (getRoom_setRoom_self s R room _ hroom)]
      rw [markedRoomV2_idem, setRoom_setRoom]
    · show List.Forall₂ (MarkRel X) room.messages
        (room.messages.map (fun e =>
          if V2.notTrueEntry e.2.readBy X then
            (e.1, { e.2 with readBy := setEntry e.2.readBy X true })
          else e))
      rw [v2_map_eq_v1_map]
      exact mark_map_readBy X room.messages
    · show getEntry (setEntry room.unreadCount X 0) X = some 0
      rw [getEntry_setEntry, if_pos rfl]
    · intro q hq
      show getEntry (setEntry room.unreadCount X 0) q = _
      rw [getEntry_setEntry, if_neg (fun hh => hq hh.symm)]
    · show getEntry (setEntry room.activeUsers X true) X = some true
      rw [getEntry_setEntry, if_pos rfl]
    · intro q hq
      show getEntry (setEntry room.activeUsers X true) q = _
      rw [getEntry_setEntry, if_neg (fun hh => hq hh.symm)]
    · intro lm hlm
      refine ⟨{ lm with readBy := setEntry lm.readBy X true }, ?_, ?_, ?_⟩
      · show (room.lastMessage.map
          (fun lm => ({ lm with readBy := setEntry lm.readBy X true } : LastMessage))) = _
        rw [hlm, Option.map_some']
      · rw [getEntry_setEntry, if_pos rfl]
      · intro q hq
        rw [getEntry_setEntry, if_neg (fun hh => hq hh.symm)]

/-- A room where user "x" has one message with no `readBy` entry for "x"
and one with a present-and-false entry. -/
def roomC2 : ChatRoom :=
  { type := "group", participants := ["a", "x"],
    lastMessage := some { text := "m2", timestamp := 2, senderId := "a",
                          readBy := [("a", true), ("x", false)] },
    unreadCount := [("x", 3)],
    messages := [("m1", { text := "m1", senderId := "a", timestamp := 1,
                          readBy := [("a", true)] }),
                 ("m2", { text := "m2", senderId := "a", timestamp := 2,
                          readBy := [("a", true), ("x", false)] })] }

def storeC2 : ChatStore := { rooms := [("9", roomC2)] }

/-- C2 witness: the theorem applied to the concrete store `storeC2`. -/
theorem markMessagesAsRead_flips_present_and_idempotent_witness :
    (V1.markMessagesAsRead storeC2 "9" "x").1 = Except.ok () ∧
    (V2.markMessagesAsRead storeC2 "9" "x").1 = Except.ok () :=
  ⟨(markMessagesAsRead_flips_present_and_idempotent storeC2 "9" "x" roomC2 rfl).1.1,
   (markMessagesAsRead_flips_present_and_idempotent storeC2 "9" "x" roomC2 rfl).2.1⟩

/-! ### Lemmas and theorem for private-chat deduplication (C3) -/

/-- The private rooms of the store containing both members of the
unordered pair. -/
def privatePairRooms (s : ChatStore) (A B : UserId) : List (RoomId × ChatRoom) :=
  s.rooms.filter (fun e =>
    e.2.type == "private" && e.2.participants.contains A && e.2.participants.contains B)

theorem find?_append_none {α : Type} (l₁ l₂ : List α) (p : α → Bool)
    (h : l₁.find? p = none) : (l₁ ++ l₂).find? p = l₂.find? p := by
  induction l₁ with
  | nil => simp
  | cons x rest ih =>
    cases hp : p x with
    | true => simp [List.find?_cons, hp] at h
    | false =>
      simp only [List.find?_cons, hp] at h
      simp only [List.cons_append, List.find?_cons, hp]
      exact ih h

/-- The room document created by `createPrivateChat` when no chat exists. -/
def freshPrivateRoom (s : ChatStore) (A B : UserId) : ChatRoom :=
  { type := "private"
    participants := [A, B]
    createdAt := s.now
    lastMessage := some
      { text := "Chat created"
        timestamp := s.now
        senderId := A
        readBy := setEntry (setEntry [] A true) B false }
    unreadCount := setEntry (setEntry [] A 0) B 1 }

/-- The store after `createPrivateChat` appended a fresh room. -/
def createdStore (s : ChatStore) (A B : UserId) : ChatStore :=
  { s with rooms := s.rooms ++ [(toString s.nextId, freshPrivateRoom s A B)],
           nextId := s.nextId + 1 }

theorem createPrivateChat_unfold_none (s : ChatStore) (A B : UserId)
    (hfind : findExistingPrivateChat s A B = none) :
    createPrivateChat s A B =
      ((toString s.nextId, freshPrivateRoom s A B), createdStore s A B) := by
  rw [createPrivateChat, hfind]
  rfl

theorem findExistingPrivateChat_after_create (s : ChatStore) (A B : UserId)
    (hfind : findExistingPrivateChat s A B = none) :
    findExistingPrivateChat (createdStore s A B) A B
      = some (toString s.nextId, freshPrivateRoom s A B) := by
  unfold findExistingPrivateChat at hfind ⊢
  rw [show (createdStore s A B).rooms
      = s.rooms ++ [(toString s.nextId, freshPrivateRoom s A B)] from rfl]
  rw [List.filter_append, find?_append_none _ _ _ hfind]
  simp [freshPrivateRoom]

/-- C3: for distinct users A and B, under sequential execution,
`createPrivateChat(A, B)` called twice returns the same room id both
times, the second call creates nothing (the store is unchanged), and if
the store held at most one private room for the unordered pair before, it
still does afterwards. -/
theorem createPrivateChat_dedup (s : ChatStore) (A B : UserId) (_hAB : A ≠ B) :
    (createPrivateChat (createPrivateChat s A B).2 A B).1.1
      = (createPrivateChat s A B).1.1 ∧
    (createPrivateChat (createPrivateChat s A B).2 A B).2 = (createPrivateChat s A B).2 ∧
    ((privatePairRooms s A B).length ≤ 1 →
      (privatePairRooms (createPrivateChat s A B).2 A B).length ≤ 1) := by
  cases hfind : findExistingPrivateChat s A B with
  | some r =>
    have h1 : createPrivateChat s A B = (r, s) := by rw [createPrivateChat, hfind]
    have h2 : createPrivateChat ((r, s) : (RoomId × ChatRoom) × ChatStore).2 A B = (r, s) := h1
    rw [h1, h2]
    exact ⟨rfl, rfl, fun hc => hc⟩
  | none =>
    have h1 := createPrivateChat_unfold_none s A B hfind
    have hfind2 := findExistingPrivateChat_after_create s A B hfind
    have h2 : createPrivateChat (createdStore s A B) A B
        = ((toString s.nextId, freshPrivateRoom s A B), createdStore s A B) := by
      rw [createPrivateChat, hfind2]
    have h2' : createPrivateChat
        (((toString s.nextId, freshPrivateRoom s A B), createdStore s A B) :
          (RoomId × ChatRoom) × ChatStore).2 A B
        = ((toString s.nextId, freshPrivateRoom s A B), createdStore s A B) := h2
    rw [h1, h2']
    refine ⟨rfl, rfl, ?_⟩
    intro _
    have hall := List.find?_eq_none.mp hfind
    have hnil : s.rooms.filter (fun e =>
        e.2.type == "private" && e.2.participants.contains A
          && e.2.participants.contains B) = [] := by
      rw [List.filter_eq_nil_iff]
      intro e he hpair
      simp only [Bool.and_eq_true] at hpair
      refine hall e (List.mem_filter.mpr ⟨he, ?_⟩) hpair.2
      rw [hpair.1.1, hpair.1.2]
      rfl
    show (List.filter _ ((createdStore s A B).rooms)).length ≤ 1
    rw [show (createdStore s A B).rooms
        = s.rooms ++ [(toString s.nextId, freshPrivateRoom s A B)] from rfl]
    rw [List.filter_append, hnil]
    simp [freshPrivateRoom]

/-- C3 witness: the theorem applied to the empty store. -/
theorem createPrivateChat_dedup_witness :
    (createPrivateChat (createPrivateChat emptyChatStore "a" "b").2 "a" "b").1.1
      = (createPrivateChat emptyChatStore "a" "b").1.1 ∧
    (privatePairRooms (createPrivateChat emptyChatStore "a" "b").2 "a" "b").length ≤ 1 :=
  ⟨(createPrivateChat_dedup emptyChatStore "a" "b" (by decide)).1,
   (createPrivateChat_dedup emptyChatStore "a" "b" (by decide)).2.2 (by decide)⟩

/-- C10: for a user A participating in at least one private room,
`findExistingPrivateChat(A, A)` returns one of those existing rooms
rather than null (the second membership check is satisfied by A's own
presence), and `getOrCreateDirectChat(A, A)` therefore returns that
existing room and creates nothing. -/
theorem findExistingPrivateChat_self (s : ChatStore) (A : UserId)
    (hex : ∃ e ∈ s.rooms, e.2.type = "private" ∧ A ∈ e.2.participants) :
    ∃ id room, findExistingPrivateChat s A A = some (id, room) ∧
      (id, room) ∈ s.rooms ∧ room.type = "private" ∧ A ∈ room.participants ∧
      getOrCreateDirectChat s A A = ((id, room), s) := by
  obtain ⟨e, he, htype, hmem⟩ := hex
  have hfiltmem : e ∈ s.rooms.filter (fun e =>
      e.2.type == "private" && e.2.participants.contains A) :=
    List.mem_filter.mpr ⟨he, by simp [htype, hmem]⟩
  cases hres : (s.rooms.filter (fun e =>
      e.2.type == "private" && e.2.participants.contains A)).find?
      (fun e => e.2.participants.contains A) with
  | none =>
    exfalso
    have := List.find?_eq_none.mp hres e hfiltmem
    simp [hmem] at this
  | some r =>
    have hp₂ := List.find?_some hres
    have hrmem := List.mem_of_find?_eq_some hres
    have hrfilt := List.mem_filter.mp hrmem
    have hfind : findExistingPrivateChat s A A = some r := hres
    have hr1 : r.2.type = "private" := by
      have := hrfilt.2
      simp only [Bool.and_eq_true, beq_iff_eq] at this
      exact this.1
    refine ⟨r.1, r.2, ?_, ?_, hr1, ?_, ?_⟩
    · rw [hfind]
    · exact hrfilt.1
    · simpa using hp₂
    · rw [getOrCreateDirectChat, hfind]

/-- C10 witness: the theorem applied to `storeC1`, whose room "1" is a
private room containing "a". -/
theorem findExistingPrivateChat_self_witness :
    ∃ id room, findExistingPrivateChat storeC1 "a" "a" = some (id, room) ∧
      (id, room) ∈ storeC1.rooms ∧ room.type = "private" ∧ "a" ∈ room.participants ∧
      getOrCreateDirectChat storeC1 "a" "a" = ((id, room), storeC1) :=
  findExistingPrivateChat_self storeC1 "a" ⟨("1", roomC1), by decide, by decide, by decide⟩

/-- C7: `removeParticipant` never raises the non-group error: the guard
`!room.type === 'group'` strict-compares a boolean against a string and is
false for every stored type, so for every existing room, private rooms
included, the call succeeds and removes the participant (all occurrences)
from `participants`, leaving all other fields unchanged. -/
theorem removeParticipant_ignores_room_type (s : ChatStore) (R : RoomId) (P : UserId)
    (room : ChatRoom) (hroom : getRoom s R = some room) :
    (∀ t : String, jsStrictEq (JsVal.bool (jsNot (JsVal.str t))) (JsVal.str "group") = false) ∧
    (removeParticipant s R P).1 = Except.ok () ∧
    ∃ room', getRoom (removeParticipant s R P).2 R = some room' ∧
      room' = { room with participants := room.participants.filter (fun y => !(y == P)) } ∧
      (∀ q, q ∈ room'.participants ↔ (q ∈ room.participants ∧ ¬q = P)) := by
  have hunfold : removeParticipant s R P = (Except.ok (), setRoom s R
      { room with participants := room.participants.filter (fun y => !(y == P)) }) := by
    rw [removeParticipant, hroom]
    rfl
  refine ⟨fun t => rfl, ?_, ?_⟩
  · rw [hunfold]
  · rw [hunfold]
    refine ⟨_, getRoom_setRoom_self s R room _ hroom, rfl, ?_⟩
    intro q
    simp [List.mem_filter]

/-- C7 witness: the theorem applied to a private room: the removal
succeeds and drops "b". -/
theorem removeParticipant_ignores_room_type_witness :
    (removeParticipant storeC1 "1" "b").1 = Except.ok () ∧
    ∃ room', getRoom (removeParticipant storeC1 "1" "b").2 "1" = some room' ∧
      ("b" ∈ room'.participants ↔ ("b" ∈ roomC1.participants ∧ ¬"b" = "b")) :=
  ⟨(removeParticipant_ignores_room_type storeC1 "1" "b" roomC1 rfl).2.1,
   by
    obtain ⟨room', h1, _, h3⟩ :=
      (removeParticipant_ignores_room_type storeC1 "1" "b" roomC1 rfl).2.2
    exact ⟨room', h1, h3 "b"⟩⟩

/-- C8: `addUserToGroup(roomId, actingAdminId, userId)` fails with the
not-found error when the room is missing; given the room, fails with the
admin-only error when `actingAdminId` is not the stored `groupAdmin`;
given an authorized admin, fails with the already-member error when
`userId` is already a participant; and otherwise succeeds, appending
`userId` to `participants` and leaving every other room field unchanged.
All failures leave the store untouched. -/
theorem addUserToGroup_checks (s : ChatStore) (R : RoomId) (adminId userId : UserId) :
    (getRoom s R = none →
      addUserToGroup s R adminId userId = (Except.error "Chat room not found", s)) ∧
    (∀ room, getRoom s R = some room → room.groupAdmin ≠ some adminId →
      addUserToGroup s R adminId userId = (Except.error "Only group admin can add members", s)) ∧
    (∀ room, getRoom s R = some room → room.groupAdmin = some adminId →
      userId ∈ room.participants →
      addUserToGroup s R adminId userId = (Except.error "User is already in the group", s)) ∧
    (∀ room, getRoom s R = some room → room.groupAdmin = some adminId →
      userId ∉ room.participants →
      (addUserToGroup s R adminId userId).1 = Except.ok () ∧
      getRoom (addUserToGroup s R adminId userId).2 R =
        some { room with participants := room.participants ++ [userId] }) := by
  refine ⟨?_, ?_, ?_, ?_⟩
  · intro h
    rw [addUserToGroup, h]
  · intro room hroom hadmin
    rw [addUserToGroup, hroom]
    simp only [if_pos hadmin]
  · intro room hroom hadmin hmem
    have hne : ¬(room.groupAdmin ≠ some adminId) := fun hh => hh hadmin
    have hc : room.participants.contains userId = true := by simpa using hmem
    have hstep : addUserToGroup s R adminId userId =
        (if room.groupAdmin ≠ some adminId then
          (Except.error "Only group admin can add members", s)
        else if room.participants.contains userId then
          (Except.error "User is already in the group", s)
        else (Except.ok (), setRoom s R
          { room with participants := arrayUnion room.participants userId })) := by
      rw [addUserToGroup, hroom]
    rw [hstep, if_neg hne, if_pos hc]
  · intro room hroom hadmin hmem
    have hne : ¬(room.groupAdmin ≠ some adminId) := fun hh => hh hadmin
    have hc : room.participants.contains userId = false := by simpa using hmem
    have hstep : addUserToGroup s R adminId userId =
        (if room.groupAdmin ≠ some adminId then
          (Except.error "Only group admin can add members", s)
        else if room.participants.contains userId then
          (Except.error "User is already in the group", s)
        else (Except.ok (), setRoom s R
          { room with participants := arrayUnion room.participants userId })) := by
      rw [addUserToGroup, hroom]
    have hcne : ¬(room.participants.contains userId = true) := by simpa using hmem
    have hunfold : addUserToGroup s R adminId userId = (Except.ok (), setRoom s R
        { room with participants := room.participants ++ [userId] }) := by
      rw [hstep, if_neg hne, if_neg hcne]
      simp [arrayUnion, hmem]
    rw [hunfold]
    exact ⟨rfl, getRoom_setRoom_self s R room _ hroom⟩

/-- The group-room scenario of the claim: admin "G", members G and M1. -/
def roomC8 : ChatRoom :=
  { type := "group", name := some "team", participants := ["G", "M1"],
    groupAdmin := some "G" }

def storeC8 : ChatStore := { rooms := [("5", roomC8)] }

/-- C8 witness: G may add M2 (participants become G, M1, M2); M1 may not. -/
theorem addUserToGroup_checks_witness :
    ((addUserToGroup storeC8 "5" "G" "M2").1 = Except.ok () ∧
      getRoom (addUserToGroup storeC8 "5" "G" "M2").2 "5" =
        some { roomC8 with participants := ["G", "M1", "M2"] }) ∧
    addUserToGroup storeC8 "5" "M1" "M2" =
      (Except.error "Only group admin can add members", storeC8) :=
  ⟨(addUserToGroup_checks storeC8 "5" "G" "M2").2.2.2 roomC8 rfl rfl (by decide),
   (addUserToGroup_checks storeC8 "5" "M1" "M2").2.1 roomC8 rfl (by decide)⟩

/-! ### Lemmas for the friend-request lifecycle (C5, C6) -/

theorem getUser_updateUser_self (s : UserStore) (A : UserId) (f : UserProfile → UserProfile)
    (d : UserProfile) (h : getUser s A = some d) :
    getUser (updateUser s A f) A = some (f d) := by
  simp only [getUser, updateUser] at h ⊢
  induction s with
  | nil => simp at h
  | cons e rest ih =>
    by_cases he : e.1 = A
    · have hbe : (e.1 == A) = true := beq_iff_eq.mpr he
      simp only [List.find?_cons, hbe, cond_true, Option.map_some'] at h
      simp only [List.map_cons, if_pos he, List.find?_cons, beq_self_eq_true,
        cond_true, Option.map_some']
      cases h
      rfl
    · have hbe : (e.1 == A) = false := by simp [he]
      simp only [List.find?_cons, hbe, cond_false] at h
      simp only [List.map_cons, if_neg he, List.find?_cons, hbe, cond_false]
      exact ih h

theorem getUser_updateUser_ne (s : UserStore) (A B : UserId) (f : UserProfile → UserProfile)
    (hne : ¬A = B) :
    getUser (updateUser s A f) B = getUser s B := by
  simp only [getUser, updateUser]
  induction s with
  | nil => simp
  | cons e rest ih =>
    by_cases he : e.1 = A
    · have hbe : (e.1 == B) = false := by
        simp only [beq_eq_false_iff_ne, ne_eq]
        intro hh
        exact hne (he ▸ hh ▸ rfl)
      have hAB : (A == B) = false := by simp [hne]
      simp only [List.map_cons, if_pos he, List.find?_cons, hAB, hbe, cond_false]
      exact ih
    · simp only [List.map_cons, if_neg he, List.find?_cons]
      cases hbe : (e.1 == B) with
      | true => rfl
      | false => exact ih

theorem filter_append_singleton_ne (l : List String) (x : String) (h : x ∉ l) :
    (l ++ [x]).filter (fun y => !(y == x)) = l := by
  rw [List.filter_append]
  have h2 : [x].filter (fun y => !(y == x)) = [] := by simp
  rw [h2, List.append_nil]
  apply List.filter_eq_self.mpr
  intro y hy
  simp only [Bool.not_eq_eq_eq_not, Bool.not_true, beq_eq_false_iff_ne, ne_eq]
  intro he
  exact h (he ▸ hy)

theorem sendFriendRequest_unfold (s : UserStore) (A B : UserId) (ad rd : UserProfile)
    (hA : getUser s A = some ad) (hB : getUser s B = some rd) :
    sendFriendRequest s A B =
      (if ((ad.friends.getD []).contains B || (rd.friends.getD []).contains A) then
        (Except.error "Already friends", s)
      else if (((ad.friendRequests.getD {}).sent).contains B
          || ((rd.friendRequests.getD {}).received).contains A) then
        (Except.error "Friend request already sent", s)
      else (Except.ok (), updateUser (updateUser s A
        (fun d =>
          let fr := d.friendRequests.getD {}
          let fr' : FriendRequests := { fr with sent := arrayUnion fr.sent B }
          { d with friendRequests := some fr' })) B
        (fun d =>
          let fr := d.friendRequests.getD {}
          let fr' : FriendRequests := { fr with received := arrayUnion fr.received A }
          { d with friendRequests := some fr' }))) := by
  rw [sendFriendRequest, hA, hB]

/-- C5 (amended): for existing profiles, sendFriendRequest fails with the
already-friends error when either friends list contains the other; it
fails with the already-requested error exactly when the sender-to-receiver
edge is already recorded (receiver in the sender's sent list, or sender in
the receiver's received list) — a pending edge in the opposite direction
(receiver to sender) does not block; only otherwise does it add receiver
to the sender's friendRequests.sent and sender to the receiver's
friendRequests.received, touching nothing else. -/
theorem sendFriendRequest_direction_checks (s : UserStore) (A B : UserId)
    (ad rd : UserProfile) (hA : getUser s A = some ad) (hB : getUser s B = some rd) :
    (((ad.friends.getD []).contains B || (rd.friends.getD []).contains A) = true →
      sendFriendRequest s A B = (Except.error "Already friends", s)) ∧
    (((ad.friends.getD []).contains B || (rd.friends.getD []).contains A) = false →
      (((ad.friendRequests.getD {}).sent).contains B
        || ((rd.friendRequests.getD {}).received).contains A) = true →
      sendFriendRequest s A B = (Except.error "Friend request already sent", s)) ∧
    (((ad.friends.getD []).contains B || (rd.friends.getD []).contains A) = false →
      (((ad.friendRequests.getD {}).sent).contains B
        || ((rd.friendRequests.getD {}).received).contains A) = false →
      ¬A = B →
      (sendFriendRequest s A B).1 = Except.ok () ∧
      (∃ ad', getUser (sendFriendRequest s A B).2 A = some ad' ∧
        ad'.friendRequests = some
          { sent := arrayUnion (ad.friendRequests.getD {}).sent B
            received := (ad.friendRequests.getD {}).received } ∧
        ad'.friends = ad.friends) ∧
      (∃ rd', getUser (sendFriendRequest s A B).2 B = some rd' ∧
        rd'.friendRequests = some
          { sent := (rd.friendRequests.getD {}).sent
            received := arrayUnion (rd.friendRequests.getD {}).received A } ∧
        rd'.friends = rd.friends)) := by
  have hstep := sendFriendRequest_unfold s A B ad rd hA hB
  refine ⟨?_, ?_, ?_⟩
  · intro hc
    rw [hstep, if_pos hc]
  · intro hc1 hc2
    rw [hstep, if_neg (by rw [hc1]; exact Bool.false_ne_true), if_pos hc2]
  · intro hc1 hc2 hne
    have hre : sendFriendRequest s A B = (Except.ok (), updateUser (updateUser s A
        (fun d =>
          let fr := d.friendRequests.getD {}
          let fr' : FriendRequests := { fr with sent := arrayUnion fr.sent B }
          { d with friendRequests := some fr' })) B
        (fun d =>
          let fr := d.friendRequests.getD {}
          let fr' : FriendRequests := { fr with received := arrayUnion fr.received A }
          { d with friendRequests := some fr' })) := by
      rw [hstep, if_neg (by rw [hc1]; exact Bool.false_ne_true),
          if_neg (by rw [hc2]; exact Bool.false_ne_true)]
    have hBA : ¬B = A := fun hh => hne hh.symm
    simp only [hre]
    refine ⟨trivial, ?_, ?_⟩
    · refine ⟨_, (getUser_updateUser_ne _ B A _ hBA).trans
        (getUser_updateUser_self s A _ ad hA), ?_, ?_⟩ <;> rfl
    · refine ⟨_, getUser_updateUser_self (updateUser s A _) B _ rd
        ((getUser_updateUser_ne s A B _ hne).trans hB), ?_, ?_⟩ <;> rfl

/-- Profiles with a pending reverse edge: "B" has already sent a request
to "A" ("B".sent contains "A", "A".received contains "B"). -/
def profileRevA : UserProfile :=
  { id := some "A", friendRequests := some { sent := [], received := ["B"] } }

def profileRevB : UserProfile :=
  { id := some "B", friendRequests := some { sent := ["A"], received := [] } }

def storeRev : UserStore := [("A", profileRevA), ("B", profileRevB)]

/-- C5 counterexample: with a pending edge in the reverse direction
(B previously sent a request to A), `sendFriendRequest(A, B)` succeeds
instead of failing with the already-requested error required by the
claim for a pending edge in either direction. -/
theorem sendFriendRequest_ignores_reverse_edge :
    ((profileRevB.friendRequests.getD {}).sent).contains "A" = true ∧
    ((profileRevA.friendRequests.getD {}).received).contains "B" = true ∧
    (sendFriendRequest storeRev "A" "B").1 = Except.ok () :=
  ⟨rfl, rfl, rfl⟩

def storeFresh : UserStore := [("A", { id := some "A" }), ("B", { id := some "B" })]

/-- C5 witness: the theorem applied to concrete stores: a fresh pair
succeeds, and a same-direction pending edge fails with the
already-requested error. -/
theorem sendFriendRequest_direction_checks_witness :
    (sendFriendRequest storeFresh "A" "B").1 = Except.ok () ∧
    sendFriendRequest storeRev "B" "A" = (Except.error "Friend request already sent", storeRev) :=
  ⟨((sendFriendRequest_direction_checks storeFresh "A" "B" _ _ rfl rfl).2.2
      (by decide) (by decide) (by decide)).1,
   (sendFriendRequest_direction_checks storeRev "B" "A" profileRevB profileRevA rfl rfl).2.1
      (by decide) (by decide)⟩

/-- C6: for distinct existing profiles A and B with no prior edge and not
already friends, `sendFriendRequest(A, B)` followed by
`acceptFriendRequest(B, A)` leaves B in A's friends, A in B's friends, and
the edge absent from all four friendRequests lists, so neither id appears
simultaneously in a friends list and a friendRequests list of the other. -/
theorem friend_request_accept_lifecycle (s : UserStore) (A B : UserId) (hne : ¬A = B)
    (ad bd : UserProfile) (hA : getUser s A = some ad) (hB : getUser s B = some bd)
    (hfA : B ∉ ad.friends.getD []) (hfB : A ∉ bd.friends.getD [])
    (hsA : B ∉ (ad.friendRequests.getD {}).sent)
    (hrA : B ∉ (ad.friendRequests.getD {}).received)
    (hsB : A ∉ (bd.friendRequests.getD {}).sent)
    (hrB : A ∉ (bd.friendRequests.getD {}).received) :
    (sendFriendRequest s A B).1 = Except.ok () ∧
    (acceptFriendRequest (sendFriendRequest s A B).2 B A).1 = Except.ok () ∧
    ∃ ad' bd',
      getUser (acceptFriendRequest (sendFriendRequest s A B).2 B A).2 A = some ad' ∧
      getUser (acceptFriendRequest (sendFriendRequest s A B).2 B A).2 B = some bd' ∧
      B ∈ ad'.friends.getD [] ∧ A ∈ bd'.friends.getD [] ∧
      B ∉ (ad'.friendRequests.getD {}).sent ∧ B ∉ (ad'.friendRequests.getD {}).received ∧
      A ∉ (bd'.friendRequests.getD {}).sent ∧ A ∉ (bd'.friendRequests.getD {}).received := by
  have hBA : ¬B = A := fun hh => hne hh.symm
  have hc1 : ((ad.friends.getD []).contains B || (bd.friends.getD []).contains A) = false := by
    simp [hfA, hfB]
  have hc2 : (((ad.friendRequests.getD {}).sent).contains B
      || ((bd.friendRequests.getD {}).received).contains A) = false := by
    simp [hsA, hrB]
  have hsend : sendFriendRequest s A B = (Except.ok (), updateUser (updateUser s A
      (fun d =>
        let fr := d.friendRequests.getD {}
        let fr' : FriendRequests := { fr with sent := arrayUnion fr.sent B }
        { d with friendRequests := some fr' })) B
      (fun d =>
        let fr := d.friendRequests.getD {}
        let fr' : FriendRequests := { fr with received := arrayUnion fr.received A }
        { d with friendRequests := some fr' })) := by
    rw [sendFriendRequest_unfold s A B ad bd hA hB,
        if_neg (by rw [hc1]; exact Bool.false_ne_true),
        if_neg (by rw [hc2]; exact Bool.false_ne_true)]
  have hA1 : getUser (sendFriendRequest s A B).2 A = some
      { ad with friendRequests := some (FriendRequests.mk
          (arrayUnion (ad.friendRequests.getD {}).sent B)
          ((ad.friendRequests.getD {}).received)) } := by
    simp only [hsend]
    exact (getUser_updateUser_ne _ B A _ hBA).trans
      (getUser_updateUser_self s A _ ad hA)
  have hB1 : getUser (sendFriendRequest s A B).2 B = some
      { bd with friendRequests := some (FriendRequests.mk
          ((bd.friendRequests.getD {}).sent)
          (arrayUnion (bd.friendRequests.getD {}).received A)) } := by
    simp only [hsend]
    exact getUser_updateUser_self (updateUser s A _) B _ bd
      ((getUser_updateUser_ne s A B _ hne).trans hB)
  have hrBc : ((bd.friendRequests.getD {}).received).contains A = false := by
    simpa using hrB
  have hunion : arrayUnion ((bd.friendRequests.getD {}).received) A
      = ((bd.friendRequests.getD {}).received) ++ [A] := by
    unfold arrayUnion
    rw [hrBc]
    rfl
  have haccept : acceptFriendRequest (sendFriendRequest s A B).2 B A =
      (Except.ok (), updateUser (updateUser (sendFriendRequest s A B).2 B
        (fun d => { d with
          friendRequests := some
            ({ sent := (bd.friendRequests.getD {}).sent
               received := (arrayUnion (bd.friendRequests.getD {}).received A).filter
                 (fun id => !(id == A)) } : FriendRequests)
          friends := some ((bd.friends.getD []) ++ [A]) })) A
        (fun d => { d with
          friendRequests := some
            ({ sent := (arrayUnion (ad.friendRequests.getD {}).sent B).filter
                 (fun id => !(id == B))
               received := (ad.friendRequests.getD {}).received } : FriendRequests)
          friends := some ((ad.friends.getD []) ++ [B]) })) := by
    have hcondFalse :
        ¬((!((arrayUnion (bd.friendRequests.getD {}).received A).contains A)) = true) := by
      rw [hunion]
      simp
    have hacc1 : acceptFriendRequest (sendFriendRequest s A B).2 B A =
        (if (!((arrayUnion (bd.friendRequests.getD {}).received A).contains A)) = true then
          (Except.error "Friend request not found", (sendFriendRequest s A B).2)
        else (Except.ok (), updateUser (updateUser (sendFriendRequest s A B).2 B
          (fun d => { d with
            friendRequests := some
              ({ sent := (bd.friendRequests.getD {}).sent
                 received := (arrayUnion (bd.friendRequests.getD {}).received A).filter
                   (fun id => !(id == A)) } : FriendRequests)
            friends := some ((bd.friends.getD []) ++ [A]) })) A
          (fun d => { d with
            friendRequests := some
              ({ sent := (arrayUnion (ad.friendRequests.getD {}).sent B).filter
                   (fun id => !(id == B))
                 received := (ad.friendRequests.getD {}).received } : FriendRequests)
            friends := some ((ad.friends.getD []) ++ [B]) }))) := by
      rw [acceptFriendRequest, hB1, hA1]
      rfl
    rw [hacc1, if_neg hcondFalse]
  have hsAc : (ad.friendRequests.getD {}).sent.contains B = false := by simpa using hsA
  have hunionA : arrayUnion ((ad.friendRequests.getD {}).sent) B
      = ((ad.friendRequests.getD {}).sent) ++ [B] := by
    unfold arrayUnion
    rw [hsAc]
    rfl
  refine ⟨by rw [hsend], by rw [haccept], ?_⟩
  simp only [haccept]
  refine ⟨_, _,
    getUser_updateUser_self _ A _ _ ((getUser_updateUser_ne _ B A _ hBA).trans hA1),
    (getUser_updateUser_ne _ A B _ hne).trans (getUser_updateUser_self _ B _ _ hB1),
    ?_, ?_, ?_, ?_, ?_, ?_⟩
  · show B ∈ (ad.friends.getD []) ++ [B]
    simp
  · show A ∈ (bd.friends.getD []) ++ [A]
    simp
  · show B ∉ ((arrayUnion (ad.friendRequests.getD {}).sent B).filter
      (fun id => !(id == B)))
    rw [hunionA, filter_append_singleton_ne _ _ hsA]
    exact hsA
  · show B ∉ (ad.friendRequests.getD {}).received
    exact hrA
  · show A ∉ (bd.friendRequests.getD {}).sent
    exact hsB
  · show A ∉ ((arrayUnion (bd.friendRequests.getD {}).received A).filter
      (fun id => !(id == A)))
    rw [hunion, filter_append_singleton_ne _ _ hrB]
    exact hrB

/-- C6 witness: the full lifecycle run on two fresh profiles. -/
theorem friend_request_accept_lifecycle_witness :
    (sendFriendRequest storeFresh "A" "B").1 = Except.ok () ∧
    (acceptFriendRequest (sendFriendRequest storeFresh "A" "B").2 "B" "A").1 = Except.ok () ∧
    ∃ ad' bd',
      getUser (acceptFriendRequest (sendFriendRequest storeFresh "A" "B").2 "B" "A").2 "A"
        = some ad' ∧
      getUser (acceptFriendRequest (sendFriendRequest storeFresh "A" "B").2 "B" "A").2 "B"
        = some bd' ∧
      "B" ∈ ad'.friends.getD [] ∧ "A" ∈ bd'.friends.getD [] ∧
      "B" ∉ (ad'.friendRequests.getD {}).sent ∧ "B" ∉ (ad'.friendRequests.getD {}).received ∧
      "A" ∉ (bd'.friendRequests.getD {}).sent ∧ "A" ∉ (bd'.friendRequests.getD {}).received :=
  friend_request_accept_lifecycle storeFresh "A" "B" (by decide) _ _ rfl rfl
    (by decide) (by decide) (by decide) (by decide) (by decide) (by decide)

/-! ### Decimal-representation facts for the username probe (C9)

The probing loop appends decimal counters to the base username, so the
distinctness of the candidate strings rests on the injectivity and
non-emptiness of `Nat.repr`, proved here through `Nat.digits`. -/

theorem toDigitsCore_eq_digits (f : Nat) :
    ∀ (n : Nat) (l : List Char), 0 < n → n < f →
      Nat.toDigitsCore 10 f n l = ((Nat.digits 10 n).map Nat.digitChar).reverse ++ l := by
  induction f with
  | zero => intro n l hn hf; omega
  | succ f ih =>
    intro n l hn hf
    have hd : Nat.digits 10 n = n % 10 :: Nat.digits 10 (n / 10) :=
      Nat.digits_def' (by norm_num) hn
    by_cases h0 : n / 10 = 0
    · simp only [Nat.toDigitsCore, h0, if_true]
      rw [hd, h0]
      simp
    · have hn' : 0 < n / 10 := Nat.pos_of_ne_zero h0
      have hf' : n / 10 < f :=
        lt_of_lt_of_le (Nat.div_lt_self hn (by norm_num)) (Nat.lt_succ_iff.mp hf)
      simp only [Nat.toDigitsCore, h0, if_false]
      rw [ih _ _ hn' hf', hd]
      simp

theorem repr_eq_digits (n : Nat) (hn : 0 < n) :
    Nat.repr n = (((Nat.digits 10 n).map Nat.digitChar).reverse).asString := by
  show (Nat.toDigitsCore 10 (n + 1) n []).asString = _
  rw [toDigitsCore_eq_digits (n + 1) n [] hn (Nat.lt_succ_self n)]
  rw [List.append_nil]

theorem map_digitChar_inj : ∀ (l1 l2 : List Nat), (∀ x ∈ l1, x < 10) → (∀ x ∈ l2, x < 10) →
    l1.map Nat.digitChar = l2.map Nat.digitChar → l1 = l2 := by
  intro l1
  induction l1 with
  | nil =>
    intro l2 _ _ h
    cases l2 with
    | nil => rfl
    | cons b t => simp at h
  | cons a t ih =>
    intro l2 h1 h2 h
    cases l2 with
    | nil => simp at h
    | cons b t2 =>
      simp only [List.map_cons, List.cons.injEq] at h
      have ha := h1 a (by simp)
      have hb := h2 b (by simp)
      have hdig : ∀ a < 10, ∀ b < 10, Nat.digitChar a = Nat.digitChar b → a = b := by decide
      have hab : a = b := hdig a ha b hb h.1
      rw [hab, ih t2 (fun x hx => h1 x (by simp [hx])) (fun x hx => h2 x (by simp [hx])) h.2]

theorem natRepr_pos_inj (m n : Nat) (hm : 0 < m) (hn : 0 < n)
    (h : Nat.repr m = Nat.repr n) : m = n := by
  rw [repr_eq_digits m hm, repr_eq_digits n hn] at h
  have hdata : ((Nat.digits 10 m).map Nat.digitChar).reverse
      = ((Nat.digits 10 n).map Nat.digitChar).reverse := congrArg String.data h
  have hmap := List.reverse_injective hdata
  have hdigs := map_digitChar_inj _ _
    (fun x hx => Nat.digits_lt_base (by norm_num) hx)
    (fun x hx => Nat.digits_lt_base (by norm_num) hx) hmap
  calc m = Nat.ofDigits 10 (Nat.digits 10 m) := (Nat.ofDigits_digits 10 m).symm
    _ = Nat.ofDigits 10 (Nat.digits 10 n) := by rw [hdigs]
    _ = n := Nat.ofDigits_digits 10 n

theorem natRepr_zero_ne_pos (n : Nat) (hn : 0 < n) : Nat.repr 0 ≠ Nat.repr n := by
  intro h
  rw [repr_eq_digits n hn] at h
  have hdata : (['0'] : List Char) = ((Nat.digits 10 n).map Nat.digitChar).reverse :=
    congrArg String.data h
  have hrev := congrArg List.reverse hdata
  simp only [List.reverse_reverse] at hrev
  cases hdg : Nat.digits 10 n with
  | nil =>
    rw [hdg] at hrev
    simp at hrev
  | cons d rest =>
    rw [hdg] at hrev
    cases rest with
    | cons d2 rest2 => simp at hrev
    | nil =>
      simp only [List.map_cons, List.map_nil, List.reverse_cons, List.reverse_nil,
        List.nil_append, List.cons.injEq] at hrev
      have hdc : Nat.digitChar d = '0' := hrev.1.symm
      have hdlt : d < 10 := Nat.digits_lt_base (by norm_num) (by rw [hdg]; simp)
      have hd0 : d = 0 := by
        have hh : ∀ a < 10, Nat.digitChar a = '0' → a = 0 := by decide
        exact hh d hdlt hdc
      have hof := Nat.ofDigits_digits 10 n
      rw [hdg, hd0] at hof
      simp [Nat.ofDigits] at hof
      omega

theorem natRepr_injective : Function.Injective Nat.repr := by
  intro m n h
  match m, n with
  | 0, 0 => rfl
  | 0, Nat.succ n => exact absurd h (natRepr_zero_ne_pos (n + 1) (Nat.succ_pos n))
  | Nat.succ m, 0 => exact absurd h.symm (natRepr_zero_ne_pos (m + 1) (Nat.succ_pos m))
  | Nat.succ m, Nat.succ n =>
    exact natRepr_pos_inj _ _ (Nat.succ_pos m) (Nat.succ_pos n) h

theorem natRepr_ne_empty (n : Nat) : Nat.repr n ≠ "" := by
  cases Nat.eq_zero_or_pos n with
  | inl h =>
    subst h
    decide
  | inr h =>
    intro hc
    rw [repr_eq_digits n h] at hc
    have hdata : ((Nat.digits 10 n).map Nat.digitChar).reverse = ([] : List Char) :=
      congrArg String.data hc
    simp only [List.reverse_eq_nil_iff, List.map_eq_nil_iff] at hdata
    exact (Nat.digits_ne_nil_iff_ne_zero.mpr (Nat.pos_iff_ne_zero.mp h)) hdata

/-! ### C9: the probing loop of `upsertProfile` -/

theorem candidate_injective (base : String) : Function.Injective (candidate base) := by
  have hpos : ∀ j k : Nat, candidate base (j + 1) = candidate base (k + 1) → j = k := by
    intro j k h
    have hd : (base ++ toString (j + 1)).data = (base ++ toString (k + 1)).data :=
      congrArg String.data h
    rw [String.data_append, String.data_append] at hd
    have hdd := List.append_cancel_left hd
    have hrepr : Nat.repr (j + 1) = Nat.repr (k + 1) := congrArg String.mk hdd
    have := natRepr_injective hrepr
    omega
  have hzero : ∀ k : Nat, candidate base 0 ≠ candidate base (k + 1) := by
    intro k h
    have hd : base.data = (base ++ toString (k + 1)).data := congrArg String.data h
    rw [String.data_append] at hd
    have hnil : (toString (k + 1)).data = [] := List.append_right_eq_self.mp hd.symm
    exact natRepr_ne_empty (k + 1) (congrArg String.mk hnil)
  intro i j h
  match i, j with
  | 0, 0 => rfl
  | 0, Nat.succ k => exact absurd h (hzero k)
  | Nat.succ j, 0 => exact absurd h.symm (hzero j)
  | Nat.succ a, Nat.succ b => exact congrArg Nat.succ (hpos a b h)

theorem isUsernameTaken_iff (s : UserStore) (u : String) :
    isUsernameTaken s u = true ↔ u ∈ s.filterMap (fun e => e.2.username) := by
  simp only [isUsernameTaken, List.any_eq_true, List.mem_filterMap, beq_iff_eq]

theorem exists_free_candidate (s : UserStore) (base : String) :
    ∃ j, j ≤ s.length + 1 ∧ isUsernameTaken s (candidate base j) = false := by
  by_contra hcon
  push_neg at hcon
  have htaken : ∀ j, j ≤ s.length + 1 → isUsernameTaken s (candidate base j) = true := by
    intro j hj
    cases hx : isUsernameTaken s (candidate base j) with
    | false => exact absurd hx (hcon j hj)
    | true => rfl
  have hnodup : ((List.range (s.length + 2)).map (candidate base)).Nodup :=
    (List.nodup_range (s.length + 2)).map (candidate_injective base)
  have hsub : ((List.range (s.length + 2)).map (candidate base)).toFinset
      ⊆ (s.filterMap (fun e => e.2.username)).toFinset := by
    intro x hx
    rw [List.mem_toFinset] at hx ⊢
    simp only [List.mem_map, List.mem_range] at hx
    obtain ⟨j, hj, rfl⟩ := hx
    exact (isUsernameTaken_iff s _).mp (htaken j (by omega))
  have hcard1 : ((List.range (s.length + 2)).map (candidate base)).toFinset.card
      = s.length + 2 := by
    rw [List.toFinset_card_of_nodup hnodup, List.length_map, List.length_range]
  have hcard2 := Finset.card_le_card hsub
  have hcard3 : (s.filterMap (fun e => e.2.username)).toFinset.card
      ≤ (s.filterMap (fun e => e.2.username)).length :=
    List.toFinset_card_le _
  have hlen : (s.filterMap (fun e => e.2.username)).length ≤ s.length :=
    List.length_filterMap_le _ _
  omega

theorem probeFrom_eq (s : UserStore) (base : String) :
    ∀ (fuel k j : Nat), k ≤ j → j ≤ k + fuel →
      isUsernameTaken s (candidate base j) = false →
      (∀ i, k ≤ i → i < j → isUsernameTaken s (candidate base i) = true) →
      probeFrom s base fuel k = candidate base j := by
  intro fuel
  induction fuel with
  | zero =>
    intro k j hkj hjk _ _
    have hj : j = k := by omega
    subst hj
    rfl
  | succ fuel ih =>
    intro k j hkj hjk hfree hleast
    have hstep : probeFrom s base (fuel + 1) k
        = if isUsernameTaken s (candidate base k) then probeFrom s base fuel (k + 1)
          else candidate base k := rfl
    by_cases hkj' : k = j
    · subst hkj'
      rw [hstep, hfree, if_neg Bool.false_ne_true]
    · have hk : k < j := lt_of_le_of_ne hkj hkj'
      rw [hstep, hleast k le_rfl hk, if_pos rfl]
      exact ih (k + 1) j hk (by omega) hfree (fun i h1 h2 => hleast i (by omega) h2)

theorem deriveUsername_eq (s : UserStore) (base : String) (j : Nat)
    (hj : j ≤ s.length + 1)
    (hfree : isUsernameTaken s (candidate base j) = false)
    (hleast : ∀ i, i < j → isUsernameTaken s (candidate base i) = true) :
    deriveUsername s base = candidate base j :=
  probeFrom_eq s base (s.length + 2) 0 j (Nat.zero_le j) (by omega) hfree
    (fun i _ h2 => hleast i h2)

theorem deriveUsername_least (s : UserStore) (base : String) :
    ∃ j, deriveUsername s base = candidate base j ∧
      isUsernameTaken s (candidate base j) = false ∧
      ∀ i, i < j → isUsernameTaken s (candidate base i) = true := by
  obtain ⟨j0, hj0, hfree0⟩ := exists_free_candidate s base
  have hex : ∃ j, isUsernameTaken s (candidate base j) = false := ⟨j0, hfree0⟩
  have hfree : isUsernameTaken s (candidate base (Nat.find hex)) = false := Nat.find_spec hex
  have hleast : ∀ i, i < Nat.find hex → isUsernameTaken s (candidate base i) = true := by
    intro i hi
    have hmin := Nat.find_min hex hi
    cases hx : isUsernameTaken s (candidate base i) with
    | false => exact absurd hx hmin
    | true => rfl
  have hjle : Nat.find hex ≤ s.length + 1 := le_trans (Nat.find_le hfree0) hj0
  exact ⟨Nat.find hex, deriveUsername_eq s base (Nat.find hex) hjle hfree hleast, hfree, hleast⟩

theorem deriveUsername_not_taken (s : UserStore) (base : String) :
    isUsernameTaken s (deriveUsername s base) = false := by
  obtain ⟨j, heq, hfree, _⟩ := deriveUsername_least s base
  rw [heq]
  exact hfree

theorem upsertProfile_username (s : UserStore) (now : Nat) (userId : UserId)
    (data : ProfileData) (email : String)
    (hu : data.username = none) (he : data.email = some email) (hemail : email ≠ "") :
    (upsertProfile s now userId data).1.username
      = some (deriveUsername s (localPart email)) := by
  have h1 : (upsertProfile s now userId data).1.username
      = (if !(jsTruthyStr data.username) && jsTruthyStr data.email then
          some (deriveUsername s (localPart (data.email.getD "")))
        else data.username) := rfl
  rw [h1, hu, he]
  simp [jsTruthyStr, hemail]

theorem getUser_setDocMerge_self (s : UserStore) (userId : UserId)
    (merge : UserProfile → UserProfile) (fresh : UserProfile) :
    getUser (setDocMerge s userId merge fresh) userId
      = some ((getUser s userId).elim fresh merge) := by
  by_cases hfind : (s.find? (fun e => e.1 == userId)).isSome
  · rw [setDocMerge, if_pos hfind]
    obtain ⟨e, he⟩ := Option.isSome_iff_exists.mp hfind
    have hget : getUser s userId = some e.2 := by rw [getUser, he]; rfl
    rw [getUser_updateUser_self s userId merge e.2 hget, hget]
    rfl
  · rw [setDocMerge, if_neg hfind]
    have hfnone : s.find? (fun e => e.1 == userId) = none :=
      Option.not_isSome_iff_eq_none.mp hfind
    have hget : getUser s userId = none := by rw [getUser, hfnone]; rfl
    rw [hget, getUser, List.find?_append, hfnone]
    simp [List.find?]

theorem upsertProfile_stored_username (s : UserStore) (now : Nat) (userId : UserId)
    (data : ProfileData) (w : String)
    (hw : (upsertProfile s now userId data).1.username = some w) :
    ∃ p, getUser (upsertProfile s now userId data).2 userId = some p ∧
      p.username = some w := by
  have h2 : getUser (upsertProfile s now userId data).2 userId
      = some ((getUser s userId).elim (upsertProfile s now userId data).1
          (fun old =>
            { id := (upsertProfile s now userId data).1.id.or old.id
              email := (upsertProfile s now userId data).1.email.or old.email
              username := (upsertProfile s now userId data).1.username.or old.username
              qrCode := (upsertProfile s now userId data).1.qrCode.or old.qrCode
              lastSeen := (upsertProfile s now userId data).1.lastSeen.or old.lastSeen
              displayName := (upsertProfile s now userId data).1.displayName.or old.displayName
              photoURL := (upsertProfile s now userId data).1.photoURL.or old.photoURL
              status := (upsertProfile s now userId data).1.status.or old.status
              friends := old.friends
              friendRequests := old.friendRequests })) :=
    getUser_setDocMerge_self s userId _ _
  cases hold : getUser s userId with
  | none =>
    rw [hold] at h2
    exact ⟨_, h2, hw⟩
  | some old =>
    rw [hold] at h2
    refine ⟨_, h2, ?_⟩
    show (upsertProfile s now userId data).1.username.or old.username = some w
    rw [hw]
    rfl

theorem taken_of_stored (s : UserStore) (userId : UserId) (p : UserProfile) (w : String)
    (hp : getUser s userId = some p) (hpw : p.username = some w) :
    isUsernameTaken s w = true := by
  rw [getUser] at hp
  obtain ⟨e, hfind, hep⟩ := Option.map_eq_some'.mp hp
  have hmem := List.mem_of_find?_eq_some hfind
  refine List.any_eq_true.mpr ⟨e, hmem, ?_⟩
  have he2 : e.2 = p := hep
  rw [he2, hpw]
  simp

/-- C2 counterexample: after `markMessagesAsRead(R, "x")` the message in
which "x" has no `readBy` entry still has none (in both variants), where
the claim requires `readBy["x"] = true` on every message not already
read, including those with no entry. -/
theorem markMessagesAsRead_skips_messages_without_entry :
    (getRoom (V1.markMessagesAsRead storeC2 "9" "x").2 "9").map
      (fun r => r.messages.map (fun e => getEntry e.2.readBy "x"))
      = some [none, some true] ∧
    (getRoom (V2.markMessagesAsRead storeC2 "9" "x").2 "9").map
      (fun r => r.messages.map (fun e => getEntry e.2.readBy "x"))
      = some [none, some true] :=
  ⟨rfl, rfl⟩

/-- A store in which the local-part "joe" of the probe email is still free. -/
def storeC9 : UserStore := [("u1", { username := some "bob" })]

/-- An `upsertProfile` payload with no username and a truthy email. -/
def dataC9 : ProfileData := { email := some "joe@x.com" }

/-- C9: when `data.username` is absent and `data.email` is a non-empty
email, `upsertProfile` assigns the email's local-part as the username if
no existing profile uses it, and otherwise the local-part with the
smallest positive integer suffix whose result is not already taken; the
assigned username is what the stored document carries, and a second
profile subsequently created from the same email receives a distinct
username. -/
theorem upsertProfile_derives_unique_username
    (s : UserStore) (now : Nat) (userId : UserId) (data : ProfileData)
    (email : String) (hu : data.username = none) (he : data.email = some email)
    (hemail : email ≠ "") :
    (isUsernameTaken s (localPart email) = false →
      (upsertProfile s now userId data).1.username = some (localPart email)) ∧
    (isUsernameTaken s (localPart email) = true →
      ∃ m : Nat, 1 ≤ m ∧
        (upsertProfile s now userId data).1.username
          = some (localPart email ++ toString m) ∧
        isUsernameTaken s (localPart email ++ toString m) = false ∧
        ∀ i, 1 ≤ i → i < m →
          isUsernameTaken s (localPart email ++ toString i) = true) ∧
    (∃ p, getUser (upsertProfile s now userId data).2 userId = some p ∧
      p.username = (upsertProfile s now userId data).1.username) ∧
    (∀ (now2 : Nat) (userId2 : UserId) (data2 : ProfileData),
      data2.username = none → data2.email = some email →
      (upsertProfile (upsertProfile s now userId data).2 now2 userId2 data2).1.username
        ≠ (upsertProfile s now userId data).1.username) := by
  have hw : (upsertProfile s now userId data).1.username
      = some (deriveUsername s (localPart email)) :=
    upsertProfile_username s now userId data email hu he hemail
  refine ⟨?_, ?_, ?_, ?_⟩
  · intro hbfree
    rw [hw]
    refine congrArg some ?_
    exact deriveUsername_eq s (localPart email) 0 (by omega) hbfree (fun i hi => absurd hi (by omega))
  · intro hbtaken
    obtain ⟨j, hder, hfree, hleast⟩ := deriveUsername_least s (localPart email)
    cases j with
    | zero =>
      have hfree' : isUsernameTaken s (localPart email) = false := hfree
      rw [hbtaken] at hfree'
      exact absurd hfree'.symm Bool.false_ne_true
    | succ k =>
      refine ⟨k + 1, by omega, ?_, hfree, ?_⟩
      · rw [hw, hder]
        rfl
      · intro i h1 h2
        cases i with
        | zero => omega
        | succ i' => exact hleast (i' + 1) h2
  · obtain ⟨p, hp, hpw⟩ :=
      upsertProfile_stored_username s now userId data (deriveUsername s (localPart email)) hw
    exact ⟨p, hp, by rw [hpw, hw]⟩
  · intro now2 userId2 data2 hu2 he2 heq
    obtain ⟨p, hp, hpw⟩ :=
      upsertProfile_stored_username s now userId data (deriveUsername s (localPart email)) hw
    have hw2 : (upsertProfile (upsertProfile s now userId data).2 now2 userId2 data2).1.username
        = some (deriveUsername (upsertProfile s now userId data).2 (localPart email)) :=
      upsertProfile_username (upsertProfile s now userId data).2 now2 userId2 data2 email
        hu2 he2 hemail
    rw [hw2, hw] at heq
    have hsame : deriveUsername (upsertProfile s now userId data).2 (localPart email)
        = deriveUsername s (localPart email) := Option.some.inj heq
    have htaken : isUsernameTaken (upsertProfile s now userId data).2
        (deriveUsername s (localPart email)) = true :=
      taken_of_stored _ userId p _ hp hpw
    have hfree2 : isUsernameTaken (upsertProfile s now userId data).2
        (deriveUsername (upsertProfile s now userId data).2 (localPart email)) = false :=
      deriveUsername_not_taken _ _
    rw [hsame, htaken] at hfree2
    exact Bool.false_ne_true hfree2.symm

/-- C9 witness: on a concrete store where "joe" is free, upserting with
email "joe@x.com" and no username assigns exactly the local-part "joe". -/
theorem upsertProfile_derives_unique_username_witness :
    dataC9.username = none ∧ dataC9.email = some "joe@x.com" ∧
    ("joe@x.com" : String) ≠ "" ∧
    isUsernameTaken storeC9 (localPart "joe@x.com") = false ∧
    (upsertProfile storeC9 5 "u9" dataC9).1.username = some (localPart "joe@x.com") :=
  ⟨rfl, rfl, by decide, rfl,
    (upsertProfile_derives_unique_username storeC9 5 "u9" dataC9 "joe@x.com" rfl rfl
      (by decide)).1 rfl⟩

end Chatflow
